import Mathlib

set_option maxRecDepth 100000

/-! Shallow embedding of the DietBuddy Pro WhatsApp diet coach
(`main.py`, `coach.py`, `database.py`).

Text is modelled as `List Char`.  All string values the program compares or
rewrites are ASCII, so ASCII case conversion and the ASCII whitespace class
coincide with Python's behaviour on the inputs that matter here.
SQLite REAL values are modelled as `ℚ`; the only arithmetic performed on
them is multiplication by 4 (exact in binary floating point) and one
comparison against `0.7 * goal_glasses`, which agrees with the float
computation for the goal value 3.0 that the program can actually store. -/

/-- Python's whitespace class (`str.strip`, `str.split`, `\s`), ASCII range. -/
def isWS (c : Char) : Bool :=
  c = ' ' || c = '\t' || c = '\n' || c = '\r' || c = '\x0b' || c = '\x0c'

/-- Python `str.strip()` with no arguments. -/
def pyStrip (cs : List Char) : List Char :=
  ((cs.dropWhile isWS).reverse.dropWhile isWS).reverse

/-- One of the characters of the Python literal `".,!?"`. -/
def isPunct (c : Char) : Bool :=
  c = '.' || c = ',' || c = '!' || c = '?'

/-- Python `str.strip(".,!?")`. -/
def stripPunct (cs : List Char) : List Char :=
  ((cs.dropWhile isPunct).reverse.dropWhile isPunct).reverse

/-- Python `str.lower()` followed by `str.strip()` (the `msg_lower` idiom). -/
def pyLowerStrip (cs : List Char) : List Char :=
  pyStrip (cs.map Char.toLower)

/-- Helper for `splitWS`: accumulates the current word in reverse. -/
def splitWSAux : List Char → List Char → List (List Char)
  | [], cur => if cur = [] then [] else [cur.reverse]
  | c :: rest, cur =>
    if isWS c then
      if cur = [] then splitWSAux rest [] else cur.reverse :: splitWSAux rest []
    else splitWSAux rest (c :: cur)

/-- Python `str.split()` with no arguments: split on whitespace runs. -/
def splitWS (cs : List Char) : List (List Char) := splitWSAux cs []

/-- Helper for `hasSub`: does `needle` occur in the second argument? -/
def hasSubAux (needle : List Char) : List Char → Bool
  | [] => needle.isEmpty
  | hay@(_ :: t) => needle.isPrefixOf hay || hasSubAux needle t

/-- Python `needle in hay` substring test. -/
def hasSub (hay needle : List Char) : Bool := hasSubAux needle hay

/-- Helper for `indexOfSub`. -/
def indexOfSubAux (needle : List Char) : List Char → Nat → Option Nat
  | [], i => if needle.isEmpty then some i else none
  | hay@(_ :: t), i =>
    if needle.isPrefixOf hay then some i else indexOfSubAux needle t (i + 1)

/-- Python `hay.index(needle)`: index of the first occurrence. -/
def indexOfSub (hay needle : List Char) : Option Nat :=
  indexOfSubAux needle hay 0

/-- Helper for `pyTitle`: the flag records whether the previous character
was alphabetic. -/
def pyTitleAux : List Char → Bool → List Char
  | [], _ => []
  | c :: rest, prevAlpha =>
    (if c.isAlpha then (if prevAlpha then c.toLower else c.toUpper) else c)
      :: pyTitleAux rest c.isAlpha

/-- Python `str.title()` (ASCII). -/
def pyTitle (cs : List Char) : List Char := pyTitleAux cs false

/-- Python `str.isalpha()` (ASCII): nonempty and all alphabetic. -/
def isAlphaL (cs : List Char) : Bool :=
  !cs.isEmpty && cs.all Char.isAlpha

/-- First maximal digit run in the text, i.e. `re.findall(r"\d+", s)[0]`. -/
def firstDigitRun : List Char → Option (List Char)
  | [] => none
  | c :: rest =>
    if c.isDigit then some (c :: rest.takeWhile Char.isDigit)
    else firstDigitRun rest

/-- Numeric value of a digit run (`int` on a `\d+` match). -/
def natOfDigits (ds : List Char) : Nat :=
  ds.foldl (fun a c => a * 10 + (c.toNat - 48)) 0

/-- The first integer appearing anywhere in the message, if any. -/
def firstNumber (cs : List Char) : Option Nat :=
  (firstDigitRun cs).map natOfDigits

/-- Python `int()` truncation toward zero, on rationals. -/
def pyIntQ (q : ℚ) : Int := if 0 ≤ q then ⌊q⌋ else -⌊-q⌋

/-! ### The users table (`database.py`) -/

/-- A SQLite cell value as used by the program: TEXT, INTEGER or REAL. -/
inductive Val where
  | s (v : String)
  | i (v : Int)
  | q (v : ℚ)
deriving DecidableEq

/-- Python truthiness of a nullable cell (`user.get(field)` used in `if`):
NULL, the empty string, and zero are falsy. -/
def truthy : Option Val → Bool
  | none => false
  | some (.s v) => v ≠ ""
  | some (.i v) => v ≠ 0
  | some (.q v) => v ≠ 0

/-- One row of the `users` table.  `phone` is the contact key; the other
columns are nullable and carry the SQL defaults from the schema. -/
structure UserRow where
  phone : String := ""
  name : Option Val := none
  age : Option Val := none
  gender : Option Val := none
  diet_preference : Option Val := none
  regional_cuisine : Option Val := none
  allergies : Option Val := none
  health_goal : Option Val := none
  activity_level : Option Val := none
  wake_time : Option Val := some (.s "07:00")
  sleep_time : Option Val := some (.s "23:00")
  water_goal_liters : Option Val := some (.q 3)
  onboarding_complete : Option Val := some (.i 0)
  created_at : Option Val := some (.s "now")
  last_active : Option Val := some (.s "now")
deriving DecidableEq

/-- A freshly created user (`Database.create_user`). -/
def defaultRow (phone : String) : UserRow := { phone := phone }

/-- The whitelist in `Database.update_user_profile`. -/
def allowedFields : List String :=
  ["name", "age", "gender", "diet_preference", "regional_cuisine",
   "allergies", "health_goal", "activity_level", "wake_time",
   "sleep_time", "water_goal_liters", "onboarding_complete"]

/-- Writes one named column of a row; unknown names change nothing. -/
def setField (r : UserRow) (k : String) (v : Val) : UserRow :=
  if k = "name" then { r with name := some v }
  else if k = "age" then { r with age := some v }
  else if k = "gender" then { r with gender := some v }
  else if k = "diet_preference" then { r with diet_preference := some v }
  else if k = "regional_cuisine" then { r with regional_cuisine := some v }
  else if k = "allergies" then { r with allergies := some v }
  else if k = "health_goal" then { r with health_goal := some v }
  else if k = "activity_level" then { r with activity_level := some v }
  else if k = "wake_time" then { r with wake_time := some v }
  else if k = "sleep_time" then { r with sleep_time := some v }
  else if k = "water_goal_liters" then { r with water_goal_liters := some v }
  else if k = "onboarding_complete" then { r with onboarding_complete := some v }
  else r

/-- The `updates` dict comprehension: keep whitelisted keys with non-None
values. -/
def filterUpdates (kwargs : List (String × Option Val)) : List (String × Val) :=
  kwargs.filterMap fun kv =>
    match kv.2 with
    | some v => if kv.1 ∈ allowedFields then some (kv.1, v) else none
    | none => none

/-- `Database.update_user_profile`, acting on the row addressed by the
`WHERE phone = ?` clause.  With no valid updates the early `return` fires
and nothing is written. -/
def update_user_profile (r : UserRow) (kwargs : List (String × Option Val)) :
    UserRow :=
  (filterUpdates kwargs).foldl (fun acc kv => setField acc kv.1 kv.2) r

/-! ### Profile extraction (`main.py: _extract_profile_info` and
`_check_onboarding_complete`) -/

/-- `_check_onboarding_complete`: re-reads the (current) row and marks
onboarding complete when name, diet preference and health goal are all
set. -/
def check_onboarding_complete (r : UserRow) : UserRow :=
  if truthy r.name && truthy r.diet_preference && truthy r.health_goal then
    update_user_profile r [("onboarding_complete", some (.i 1))]
  else r

/-- `name_triggers` from `_extract_profile_info`. -/
def nameTriggers : List String :=
  ["my name is ", "i'm ", "i am ", "mera naam ",
   "this is ", "call me ", "naam ", "name is "]

/-- `veg_patterns`: diet-preference categories in dict insertion order. -/
def vegPatterns : List (String × List String) :=
  [("vegetarian", ["vegetarian", "veg ", "pure veg", "shakahari"]),
   ("non-vegetarian", ["non veg", "non-veg", "nonveg", "i eat meat",
                       "chicken", "mutton", "fish", "non vegetarian"]),
   ("eggetarian", ["egg only", "eggetarian", "egg but no meat", "anda"]),
   ("vegan", ["vegan", "no dairy", "plant based"]),
   ("jain", ["jain", "jain food"])]

/-- `cuisine_patterns`. -/
def cuisinePatterns : List (String × List String) :=
  [("North Indian", ["north indian", "punjabi", "delhi", "up food", "rajasthani"]),
   ("South Indian", ["south indian", "tamil", "kerala", "karnataka", "andhra",
                     "telugu", "dosa", "idli lover"]),
   ("Maharashtrian", ["maharashtrian", "marathi", "maharashtra", "mumbai food"]),
   ("Gujarati", ["gujarati", "gujrati", "gujarat"]),
   ("Bengali", ["bengali", "bangla", "kolkata food"]),
   ("Hyderabadi", ["hyderabadi", "hyderabad"]),
   ("Mixed / All", ["mixed", "everything", "all types", "sab kuch", "no preference"])]

/-- `goal_patterns`. -/
def goalPatterns : List (String × List String) :=
  [("eat healthier", ["eat healthy", "eat healthier", "healthy eating",
                      "improve diet", "better diet", "clean eating"]),
   ("lose weight", ["lose weight", "weight loss", "fat loss", "slim",
                    "weight kam", "vajan kam", "pet kam"]),
   ("gain muscle", ["gain muscle", "build muscle", "bulk", "mass gain",
                    "muscle bana", "body bana"]),
   ("more energy", ["more energy", "energy", "stamina", "tired",
                    "fatigue", "thakaan", "active rehna"]),
   ("manage sugar", ["sugar", "diabetes", "blood sugar", "sugar control"]),
   ("general wellness", ["general", "overall", "wellness", "fit rehna"])]

/-- First category of a pattern table with a trigger occurring in
`msgLower` (the `for pref, patterns in ...: if any(p in msg_lower ...)`
loops). -/
def matchCategory (msgLower : List Char) (tbl : List (String × List String)) :
    Option String :=
  tbl.findSome? fun cat =>
    if cat.2.any (fun p => hasSub msgLower p.data) then some cat.1 else none

/-- The body of the `for trigger in name_triggers` loop for one trigger:
the token after the trigger, punctuation-stripped, accepted when it is
alphabetic and 2–20 characters, stored title-cased.  The slice is taken
from the original `message` at the index found in `msg_lower`, exactly as
the source does.  (When the slice strips to nothing Python would raise
`IndexError` on `split()[0]`; that point is unreachable because
`msg_lower` is stripped, so the model returns `none` there.) -/
def nameFromTrigger (message msgLower trigger : List Char) :
    Option (List Char) :=
  match indexOfSub msgLower trigger with
  | none => none
  | some idx =>
    match splitWS (pyStrip (message.drop (idx + trigger.length))) with
    | [] => none
    | w :: _ =>
      let nm := stripPunct w
      if 2 ≤ nm.length && nm.length ≤ 20 && isAlphaL nm then
        some (pyTitle nm)
      else none

/-- Result of one `_extract_profile_info` call: the field writes it issued
(in order) and the row after them (including any `onboarding_complete`
write by `_check_onboarding_complete`). -/
structure ExtractOut where
  updates : List (String × Val)
  row : UserRow
deriving DecidableEq

/-- Health-goal stage of `_extract_profile_info`.  `snap` is the `user`
dict snapshot the guards read; `row` is the stored row being updated. -/
def tryGoal (msgLower : List Char) (snap row : UserRow)
    (upds : List (String × Val)) : ExtractOut :=
  if truthy snap.health_goal then ⟨upds, row⟩
  else
    match matchCategory msgLower goalPatterns with
    | some goal =>
      let row := update_user_profile row [("health_goal", some (.s goal))]
      ⟨upds ++ [("health_goal", .s goal)], check_onboarding_complete row⟩
    | none => ⟨upds, row⟩

/-- Regional-cuisine stage of `_extract_profile_info`. -/
def tryCuisine (msgLower : List Char) (snap row : UserRow)
    (upds : List (String × Val)) : ExtractOut :=
  if truthy snap.regional_cuisine then tryGoal msgLower snap row upds
  else
    match matchCategory msgLower cuisinePatterns with
    | some cui =>
      let row := update_user_profile row [("regional_cuisine", some (.s cui))]
      ⟨upds ++ [("regional_cuisine", .s cui)], check_onboarding_complete row⟩
    | none => tryGoal msgLower snap row upds

/-- Diet-preference stage of `_extract_profile_info`. -/
def tryDiet (msgLower : List Char) (snap row : UserRow)
    (upds : List (String × Val)) : ExtractOut :=
  if truthy snap.diet_preference then tryCuisine msgLower snap row upds
  else
    match matchCategory msgLower vegPatterns with
    | some pref =>
      let row := update_user_profile row [("diet_preference", some (.s pref))]
      ⟨upds ++ [("diet_preference", .s pref)], check_onboarding_complete row⟩
    | none => tryCuisine msgLower snap row upds

/-- `main.py: _extract_profile_info`.  `msgCount` is
`db.get_message_count(phone)` at the moment of the call.  A name found via
a trigger phrase returns immediately (without the onboarding check); a
name inferred by the short-early-message heuristic falls through to the
remaining stages, matching the source, which has no `return` there. -/
def extract_profile_info (message : List Char) (msgCount : Nat)
    (user : UserRow) : ExtractOut :=
  let msgLower := pyLowerStrip message
  if truthy user.name then tryDiet msgLower user user []
  else
    match nameTriggers.findSome? (fun t => nameFromTrigger message msgLower t.data) with
    | some nm =>
      ⟨[("name", .s ⟨nm⟩)], update_user_profile user [("name", some (.s ⟨nm⟩))]⟩
    | none =>
      if msgCount ≤ 4 && (splitWS message).length ≤ 2 && message.length ≤ 20 then
        let nm := pyTitle (stripPunct message)
        if isAlphaL nm && 2 ≤ nm.length then
          tryDiet msgLower user
            (update_user_profile user [("name", some (.s ⟨nm⟩))])
            [("name", .s ⟨nm⟩)]
        else tryDiet msgLower user user []
      else tryDiet msgLower user user []

/-! ### Intent detection (`coach.py`) -/

/-- `food_triggers` from `detect_food_log`. -/
def foodTriggers : List String :=
  ["ate ", "had ", "eaten ", "i ate", "i had", "i eaten",
   "khaya", "khayi", "khali", "kha liya", "kha li",
   "for breakfast", "for lunch", "for dinner", "for snack",
   "breakfast:", "lunch:", "dinner:", "snack:",
   "breakfast -", "lunch -", "dinner -", "snack -",
   "morning me", "dopahar me", "raat ko", "shaam ko",
   "just had", "just ate", "finished eating",
   "abhi khaya", "abhi khayi"]

/-- `food_items` from `detect_food_log`. -/
def foodItems : List String :=
  ["dosa", "idli", "upma", "poha", "paratha", "roti", "chapati",
   "rice", "chawal", "dal", "daal", "sabzi", "sabji", "curry",
   "biryani", "pulao", "khichdi", "maggi", "noodles", "pasta",
   "sandwich", "burger", "pizza", "samosa", "pakora", "vada",
   "paneer", "chicken", "egg", "omelette", "omlette",
   "curd", "dahi", "raita", "lassi", "buttermilk", "chaas",
   "chai", "tea", "coffee", "milk", "doodh",
   "fruit", "banana", "apple", "mango", "papaya",
   "salad", "soup", "smoothie", "juice",
   "biscuit", "cookie", "cake", "mithai", "sweet",
   "puri", "bhaji", "chole", "rajma", "aloo",
   "thali", "dabba", "tiffin"]

/-- `coach.py: detect_food_log`. -/
def detect_food_log (message : String) : Bool :=
  let msg := pyLowerStrip message.data
  foodTriggers.any (fun t => hasSub msg t.data) ||
    ((splitWS msg).length ≤ 8 && foodItems.any (fun t => hasSub msg t.data))

/-- `coach.py: detect_water_log`. -/
def detect_water_log (message : String) : Bool :=
  let msg := pyLowerStrip message.data
  (["water", "paani", "pani", "drank water", "had water",
    "glass of water", "glass water", "hydrat",
    "paani piya", "pani piya", "pani pi"] : List String).any
    (fun t => hasSub msg t.data)

/-- `coach.py: detect_summary_request`. -/
def detect_summary_request (message : String) : Bool :=
  let msg := pyLowerStrip message.data
  (["summary", "weekly summary", "week summary",
    "what did i eat", "today's log", "todays log",
    "my log", "show log", "food log", "today log",
    "kya khaya aaj", "aaj kya khaya",
    "this week", "is hafte"] : List String).any
    (fun t => hasSub msg t.data)

/-- `coach.py: detect_meal_suggestion_request`. -/
def detect_meal_suggestion_request (message : String) : Bool :=
  let msg := pyLowerStrip message.data
  (["what should i eat", "what to eat", "suggest",
    "kya khau", "kya khaun", "kya khana",
    "meal idea", "food idea", "recipe",
    "breakfast idea", "lunch idea", "dinner idea",
    "what can i have", "what can i eat",
    "hungry", "bhookh", "bhook",
    "feeling like eating", "craving"] : List String).any
    (fun t => hasSub msg t.data)

/-- `coach.py: detect_help_request`: exact match against a fixed set. -/
def detect_help_request (message : String) : Bool :=
  (⟨pyLowerStrip message.data⟩ : String) ∈
    (["help", "?", "commands", "kya kar sakte ho", "what can you do"] :
      List String)

/-- The hour-to-period mapping of `coach.py: get_time_context`, as a
function of the local (IST) hour. -/
def periodFor (hour : Nat) : String :=
  if 5 ≤ hour ∧ hour < 8 then "early_morning"
  else if 8 ≤ hour ∧ hour < 11 then "morning"
  else if 11 ≤ hour ∧ hour < 13 then "pre_lunch"
  else if 13 ≤ hour ∧ hour < 15 then "lunch"
  else if 15 ≤ hour ∧ hour < 17 then "afternoon"
  else if 17 ≤ hour ∧ hour < 20 then "evening"
  else if 20 ≤ hour ∧ hour < 22 then "dinner"
  else "late_night"

/-- The 8 bucket labels, in source order. -/
def periodBuckets : List String :=
  ["early_morning", "morning", "pre_lunch", "lunch",
   "afternoon", "evening", "dinner", "late_night"]

/-! ### Reply post-processing (`main.py: _clean_response`)

Each regex substitution is modelled as a fuel-indexed scan (fuel = length
of the text, always sufficient), which keeps every function structurally
recursive and kernel-evaluable. -/

/-- Scanner for `re.sub(r"\*\*(.*?)\*\*", r"\1", text)`: from a `**`
opener, the non-greedy interior is the shortest newline-free run followed
by a closing `**`.  Returns the interior and the remainder after the
closing delimiter. -/
def findClose : List Char → Option (List Char × List Char)
  | [] => none
  | c :: rest =>
    if c = '*' ∧ rest.head? = some '*' then some ([], rest.tail)
    else if c = '\n' then none
    else
      match findClose rest with
      | some (i, rem) => some (c :: i, rem)
      | none => none

/-- One left-to-right `re.sub` pass for the bold pattern: on a failed
match the scan advances one character, as `re.sub` does. -/
def stripBoldF : Nat → List Char → List Char
  | 0, cs => cs
  | _ + 1, [] => []
  | f + 1, c :: rest =>
    if c = '*' ∧ rest.head? = some '*' then
      match findClose rest.tail with
      | some (i, rem) => i ++ stripBoldF f rem
      | none => c :: stripBoldF f rest
    else c :: stripBoldF f rest

/-- `re.sub(r"\*\*(.*?)\*\*", r"\1", text)`. -/
def stripBold (cs : List Char) : List Char := stripBoldF cs.length cs

/-- Length of the leading run of `#` characters. -/
def countHash : List Char → Nat
  | '#' :: rest => countHash rest + 1
  | _ => 0

/-- Greedy `\s+` consumption; the flag reports whether the last consumed
whitespace character was a newline (so the scan resumes at a line start,
`re.MULTILINE`). -/
def skipWS : List Char → Bool → List Char × Bool
  | c :: rest, last => if isWS c then skipWS rest (c = '\n') else (c :: rest, last)
  | [], last => ([], last)

/-- Scanner for `re.sub(r"^#{1,3}\s+", "", text, flags=re.MULTILINE)`.
At a line start, a run of 1–3 `#` followed by whitespace is removed
together with the whitespace run (a run of 4 or more `#` never matches,
since after backtracking every shorter prefix is followed by `#`). -/
def stripHeadersF : Nat → List Char → Bool → List Char
  | 0, cs, _ => cs
  | _ + 1, [], _ => []
  | f + 1, c :: rest, atStart =>
    if atStart && c = '#' then
      let n := countHash (c :: rest)
      let afterH := (c :: rest).drop n
      if n ≤ 3 && (match afterH with | c' :: _ => isWS c' | [] => false) then
        let p := skipWS afterH false
        stripHeadersF f p.1 p.2
      else c :: stripHeadersF f rest (c = '\n')
    else c :: stripHeadersF f rest (c = '\n')

/-- The markdown-header removal pass. -/
def stripHeaders (cs : List Char) : List Char := stripHeadersF cs.length cs true

/-- Membership in the pictographic range `[\U0001F300-\U0001F9FF]`. -/
def isPicto (c : Char) : Bool := 0x1F300 ≤ c.toNat && c.toNat ≤ 0x1F9FF

/-- Scanner for `re.sub(r"([\U0001F300-\U0001F9FF]){4,}", m.group(0)[:3])`:
a maximal pictographic run of length at least 4 is replaced by its first
three characters. -/
def capEmojiF : Nat → List Char → List Char
  | 0, cs => cs
  | _ + 1, [] => []
  | f + 1, c :: rest =>
    if isPicto c then
      let run := c :: rest.takeWhile isPicto
      let rem := rest.dropWhile isPicto
      (if 4 ≤ run.length then run.take 3 else run) ++ capEmojiF f rem
    else c :: capEmojiF f rest

/-- The emoji-run capping pass. -/
def capEmoji (cs : List Char) : List Char := capEmojiF cs.length cs

/-- Helper for `rfindSub`: the highest index at which `needle` starts. -/
def rfindAux (needle : List Char) : List Char → Nat → Option Nat → Option Nat
  | [], i, best => if needle.isPrefixOf [] then some i else best
  | hay@(_ :: t), i, best =>
    rfindAux needle t (i + 1) (if needle.isPrefixOf hay then some i else best)

/-- Python `hay.rfind(needle)` (as an `Option` instead of `-1`). -/
def rfindSub (hay needle : List Char) : Option Nat := rfindAux needle hay 0 none

/-- The sentence-boundary fallback of the truncation step:
`cut = text[:4000].rfind(". "); text[:cut+1] if cut > 0 else text[:4000]`. -/
def sentenceCut (t head : List Char) : List Char :=
  match rfindSub head ['.', ' '] with
  | some cut => if 0 < cut then t.take (cut + 1) else t.take 4000
  | none => t.take 4000

/-- The length cap of `_clean_response`: texts over 4000 characters are
cut at the last paragraph break past position 2000 if any, else at the
last `". "`, else hard at 4000. -/
def truncate4000 (t : List Char) : List Char :=
  if 4000 < t.length then
    match rfindSub (t.take 4000) ['\n', '\n'] with
    | some cut => if 2000 < cut then t.take cut else sentenceCut t (t.take 4000)
    | none => sentenceCut t (t.take 4000)
  else t

/-- `main.py: _clean_response` on character lists. -/
def clean_response (text : List Char) : List Char :=
  pyStrip (truncate4000 (capEmoji (stripHeaders (stripBold text))))

/-- `_clean_response` on `String`. -/
def cleanResponseStr (s : String) : String := ⟨clean_response s.data⟩

/-- No two adjacent `*` characters: inside such a text the scanner for
the non-greedy bold pattern neither opens nor closes a delimiter (the
regex interior `.*?` may well contain single stars). -/
def noStarStar : List Char → Bool
  | c :: c' :: rest => if c = '*' ∧ c' = '*' then false else noStarStar (c' :: rest)
  | _ => true

/-- The line-start flag of the header scanner after it has copied `p`
starting from flag `b`: true iff the last copied character was a newline
(`re.MULTILINE`). -/
def flagOf : List Char → Bool → Bool
  | [], b => b
  | c :: t, _ => flagOf t (c = '\n')

/-! ### Conversation store state and the orchestrator (`main.py`) -/

/-- One row of the `messages` table for one user. -/
structure Msg where
  role : String
  content : String
deriving DecidableEq

/-- One row of the `food_logs` table for one user (today). -/
structure FoodEntry where
  meal_type : String
  food_description : String
  meal_time : String
deriving DecidableEq

/-- The per-user slice of the store that `get_ai_response` reads and
writes: the profile row, the message transcript, today's food and water
logs, and counters for `update_last_active` calls and completion-API
calls. -/
structure St where
  user : Option UserRow := none
  msgs : List Msg := []
  foods : List FoodEntry := []
  waterLogs : List Nat := []
  lastActiveTouches : Nat := 0
  completionCalls : Nat := 0
deriving DecidableEq

/-- `db.save_message`. -/
def saveMsg (st : St) (role content : String) : St :=
  { st with msgs := st.msgs ++ [⟨role, content⟩] }

/-- Meal-type inference from the hour (`Database.log_food`). -/
def mealTypeFromHour (hour : Nat) : String :=
  if 5 ≤ hour ∧ hour < 11 then "breakfast"
  else if 11 ≤ hour ∧ hour < 15 then "lunch"
  else if 15 ≤ hour ∧ hour < 18 then "snack"
  else if 18 ≤ hour ∧ hour < 22 then "dinner"
  else "late_night"

/-- The environment of one request: local hour, its `"%H:%M"` rendering,
and the completion interface's outcome for this request (`none` models
any exception from `chat.completions.create`). -/
structure Env where
  hour : Nat := 12
  hhmm : String := "12:00"
  completion : Option String := none

/-- The glass-count parse in `_handle_water_log`: the first integer in
the message when it lies in 1..10, else the default 1. -/
def parseGlasses (message : List Char) : Nat :=
  match firstNumber message with
  | none => 1
  | some n => if 1 ≤ n ∧ n ≤ 10 then n else 1

/-- `user.get("water_goal_liters", 3.0)`. -/
def goalOf (u : UserRow) : ℚ :=
  match u.water_goal_liters with
  | some (.q g) => g
  | _ => 3

/-- `main.py: _handle_water_log`: parse, persist one water entry, pick the
reply branch from the day's total against the goal-derived glass count,
persist the reply, touch last-active. -/
def handle_water_log (st : St) (message : String) (user : UserRow) :
    St × String :=
  let glasses := parseGlasses message.data
  let st := { st with waterLogs := st.waterLogs ++ [glasses] }
  let total : Nat := st.waterLogs.sum
  let goalGlasses : Int := pyIntQ (goalOf user * 4)
  let reply :=
    if goalGlasses ≤ (total : Int) then
      s!"💧 Logged! You've had {total} glasses today — you've hit your goal! Awesome 👏"
    else if (goalGlasses : ℚ) * (7 / 10) ≤ (total : ℚ) then
      s!"💧 Nice! {total} glasses done today. Almost at your goal of {goalGlasses}! Keep going 💪"
    else
      s!"💧 Logged! {total} glasses so far today. About {goalGlasses - (total : Int)} more to hit your goal. You got this!"
  let st := saveMsg st "assistant" reply
  ({ st with lastActiveTouches := st.lastActiveTouches + 1 }, reply)

/-- Python `str.replace("_", " ")`. -/
def underscoreToSpace (s : String) : String :=
  ⟨s.data.map (fun c => if c = '_' then ' ' else c)⟩

/-- The recap text `today_text` built in `_handle_summary`. -/
def todayText (st : St) : String :=
  String.intercalate "\n"
    (["Here's what you've eaten today 📋\n"] ++
      st.foods.map (fun log =>
        s!"• {(⟨pyTitle (underscoreToSpace log.meal_type).data⟩ : String)} ({log.meal_time}): {log.food_description}") ++
      [s!"\n💧 Water: {st.waterLogs.sum} glasses"])

/-- `main.py: _handle_summary`.  A failed assessment call degrades to the
bare recap; the empty-log branch returns without touching last-active. -/
def handle_summary (st : St) (completion : Option String) : St × String :=
  if st.foods.isEmpty then
    let reply := "You haven't logged any meals today yet! Batao kya khaya aaj? 😊"
    (saveMsg st "assistant" reply, reply)
  else
    let recap := todayText st
    let st := { st with completionCalls := st.completionCalls + 1 }
    let reply :=
      match completion with
      | some a => recap ++ "\n\n" ++ cleanResponseStr (⟨pyStrip a.data⟩ : String)
      | none => recap
    let st := saveMsg st "assistant" reply
    ({ st with lastActiveTouches := st.lastActiveTouches + 1 }, reply)

/-- The static capability summary returned for help requests. -/
def helpText : String :=
  "Hey! Here's what I can do 😊\n\n" ++
  "🍽️ Tell me what you ate — I'll track it and give tips\n" ++
  "💧 Say 'water' — I'll log your hydration\n" ++
  "🤔 Ask 'what should I eat' — I'll suggest meals\n" ++
  "📊 Say 'summary' — I'll show your weekly eating patterns\n" ++
  "📋 Say 'today's log' — I'll recap what you ate today\n\n" ++
  "Or just chat with me about anything food related!"

/-- The fixed apologetic fallback for a failed completion call. -/
def fallbackReply : String := "Ek second, thoda issue ho gaya 🙈 Please try again?"

/-- `main.py: get_ai_response`.  The prompt text handed to the completion
interface has no effect on any stored state, so the completion outcome is
the oracle `env.completion`; `none` models an exception, in which case
control reaches the `except` handler before the assistant turn is saved
and before profile extraction. -/
def get_ai_response (env : Env) (st : St) (message : String) : St × String :=
  let user := match st.user with | some u => u | none => defaultRow "user"
  let st := { st with user := some user }
  let st := saveMsg st "user" message
  if detect_help_request message then
    let st := saveMsg st "assistant" helpText
    ({ st with lastActiveTouches := st.lastActiveTouches + 1 }, helpText)
  else if detect_water_log message && !detect_food_log message then
    handle_water_log st message user
  else if detect_summary_request message then
    handle_summary st env.completion
  else
    let st :=
      if detect_food_log message then
        { st with foods := st.foods ++
            [⟨mealTypeFromHour env.hour, message, env.hhmm⟩] }
      else st
    let st := { st with completionCalls := st.completionCalls + 1 }
    match env.completion with
    | some raw =>
      let reply := cleanResponseStr (⟨pyStrip raw.data⟩ : String)
      let st := saveMsg st "assistant" reply
      let out := extract_profile_info message.data st.msgs.length user
      let st := { st with user := some out.row }
      ({ st with lastActiveTouches := st.lastActiveTouches + 1 }, reply)
    | none => (st, fallbackReply)

/-- States of the per-user store reachable by the orchestrator from an
unknown contact (profiles mutate only inside `get_ai_response`). -/
inductive ReachableSt : St → Prop
  | init : ReachableSt {}
  | step (env : Env) (s : St) (m : String) :
      ReachableSt s → ReachableSt (get_ai_response env s m).1

/-! ### Definitions taken from the spec's words, for comparison -/

/-- Glass-count parsing as the spec words it: "parse an optional leading
integer as glass count (default 1, clamp to [1,10])".  The leading
integer is a digit run at the very start of the message; clamping maps
values below 1 to 1 and above 10 to 10. -/
def specGlassCount (message : List Char) : Nat :=
  match message.takeWhile Char.isDigit with
  | [] => 1
  | ds => min 10 (max 1 (natOfDigits ds))

/-! ### Concrete runs used by the counterexamples -/

/-- The store after messages "i eat meat", "lose weight",
"my name is Rahul" from a fresh contact, with every completion call
succeeding. -/
def envOk : Env := { hour := 10, hhmm := "10:00", completion := some "Okay" }

/-- First step of the C1 trace. -/
def stA : St := (get_ai_response envOk {} "i eat meat").1

/-- Second step of the C1 trace. -/
def stB : St := (get_ai_response envOk stA "lose weight").1

/-- Third step of the C1 trace: name arrives last. -/
def stC : St := (get_ai_response envOk stB "my name is Rahul").1

/-- The profile row reached by the C1 trace. -/
def rowC : UserRow :=
  { phone := "user", name := some (.s "Rahul"),
    diet_preference := some (.s "non-vegetarian"),
    health_goal := some (.s "lose weight") }


/-! ## Theorems

Helper lemmas shared by several claims, followed by one theorem per claim
(with witnesses and counterexamples as required). -/

set_option maxHeartbeats 1000000

theorem upd_name (r : UserRow) (v : Val) :
    update_user_profile r [("name", some v)] = { r with name := some v } := rfl

theorem upd_diet (r : UserRow) (v : Val) :
    update_user_profile r [("diet_preference", some v)] =
      { r with diet_preference := some v } := rfl

theorem upd_cuisine (r : UserRow) (v : Val) :
    update_user_profile r [("regional_cuisine", some v)] =
      { r with regional_cuisine := some v } := rfl

theorem upd_goal (r : UserRow) (v : Val) :
    update_user_profile r [("health_goal", some v)] =
      { r with health_goal := some v } := rfl

theorem upd_flag (r : UserRow) (v : Val) :
    update_user_profile r [("onboarding_complete", some v)] =
      { r with onboarding_complete := some v } := rfl

theorem check_eq (r : UserRow) :
    check_onboarding_complete r =
      if truthy r.name && truthy r.diet_preference && truthy r.health_goal then
        { r with onboarding_complete := some (.i 1) }
      else r := by
  unfold check_onboarding_complete
  split <;> simp_all [upd_flag]

theorem tryGoal_shape (m : List Char) (s row : UserRow)
    (u : List (String × Val)) :
    tryGoal m s row u = ⟨u, row⟩ ∨
    (truthy s.health_goal = false ∧ ∃ g,
      tryGoal m s row u =
        ⟨u ++ [("health_goal", Val.s g)],
         check_onboarding_complete { row with health_goal := some (Val.s g) }⟩) := by
  unfold tryGoal
  repeat' split
  all_goals simp_all [upd_goal]

theorem tryCuisine_shape (m : List Char) (s row : UserRow)
    (u : List (String × Val)) :
    tryCuisine m s row u = tryGoal m s row u ∨
    (truthy s.regional_cuisine = false ∧ ∃ g,
      tryCuisine m s row u =
        ⟨u ++ [("regional_cuisine", Val.s g)],
         check_onboarding_complete { row with regional_cuisine := some (Val.s g) }⟩) := by
  unfold tryCuisine
  repeat' split
  all_goals simp_all [upd_cuisine]

theorem tryDiet_shape (m : List Char) (s row : UserRow)
    (u : List (String × Val)) :
    tryDiet m s row u = tryCuisine m s row u ∨
    (truthy s.diet_preference = false ∧ ∃ g,
      tryDiet m s row u =
        ⟨u ++ [("diet_preference", Val.s g)],
         check_onboarding_complete { row with diet_preference := some (Val.s g) }⟩) := by
  unfold tryDiet
  repeat' split
  all_goals simp_all [upd_diet]

theorem extract_shape (m : List Char) (c : Nat) (r : UserRow) :
    (truthy r.name = false ∧ ∃ nm : String, extract_profile_info m c r =
        ⟨[("name", Val.s nm)], { r with name := some (Val.s nm) }⟩) ∨
    extract_profile_info m c r = tryDiet (pyLowerStrip m) r r [] ∨
    (truthy r.name = false ∧ ∃ nm : String, extract_profile_info m c r =
        tryDiet (pyLowerStrip m) r { r with name := some (Val.s nm) }
          [("name", Val.s nm)]) := by
  unfold extract_profile_info
  by_cases hn : truthy r.name = true
  · right; left; simp [hn]
  · simp only [Bool.not_eq_true] at hn
    simp only [hn, Bool.false_eq_true, if_false]
    cases hfs : List.findSome? (fun t => nameFromTrigger m (pyLowerStrip m) t.data) nameTriggers with
    | some nm =>
      left
      refine ⟨trivial, ⟨nm⟩, ?_⟩
      simp [hfs, upd_name]
    | none =>
      simp only [hfs]
      split
      · split
        · right; right
          exact ⟨trivial, ⟨pyTitle (stripPunct m)⟩, by simp [upd_name]⟩
        · right; left; rfl
      · right; left; rfl

theorem extract_cases (m : List Char) (c : Nat) (r : UserRow) :
    extract_profile_info m c r = ⟨[], r⟩ ∨
    (truthy r.name = false ∧ ∃ nm : String, extract_profile_info m c r =
        ⟨[("name", Val.s nm)], { r with name := some (Val.s nm) }⟩) ∨
    (∃ (u0 : List (String × Val)) (r0 : UserRow) (k : String) (g : String)
        (r1 : UserRow),
      (u0 = [] ∧ r0 = r ∨
        (truthy r.name = false ∧ ∃ nm : String,
          u0 = [("name", Val.s nm)] ∧ r0 = { r with name := some (Val.s nm) })) ∧
      ((k = "diet_preference" ∧ truthy r.diet_preference = false ∧
          r1 = { r0 with diet_preference := some (Val.s g) }) ∨
       (k = "regional_cuisine" ∧ truthy r.regional_cuisine = false ∧
          r1 = { r0 with regional_cuisine := some (Val.s g) }) ∨
       (k = "health_goal" ∧ truthy r.health_goal = false ∧
          r1 = { r0 with health_goal := some (Val.s g) })) ∧
      extract_profile_info m c r =
        ⟨u0 ++ [(k, Val.s g)], check_onboarding_complete r1⟩) := by
  have hmain : ∀ (r0 : UserRow) (u0 : List (String × Val)),
      (u0 = [] ∧ r0 = r ∨
        (truthy r.name = false ∧ ∃ nm : String,
          u0 = [("name", Val.s nm)] ∧ r0 = { r with name := some (Val.s nm) })) →
      tryDiet (pyLowerStrip m) r r0 u0 = ⟨u0, r0⟩ ∨
      (∃ (k : String) (g : String) (r1 : UserRow),
        ((k = "diet_preference" ∧ truthy r.diet_preference = false ∧
            r1 = { r0 with diet_preference := some (Val.s g) }) ∨
         (k = "regional_cuisine" ∧ truthy r.regional_cuisine = false ∧
            r1 = { r0 with regional_cuisine := some (Val.s g) }) ∨
         (k = "health_goal" ∧ truthy r.health_goal = false ∧
            r1 = { r0 with health_goal := some (Val.s g) })) ∧
        tryDiet (pyLowerStrip m) r r0 u0 =
          ⟨u0 ++ [(k, Val.s g)], check_onboarding_complete r1⟩) := by
    intro r0 u0 _
    rcases tryDiet_shape (pyLowerStrip m) r r0 u0 with hd | ⟨hdg, g, hd⟩
    · rcases tryCuisine_shape (pyLowerStrip m) r r0 u0 with hc | ⟨hcg, g, hc⟩
      · rcases tryGoal_shape (pyLowerStrip m) r r0 u0 with hg | ⟨hgg, g, hg⟩
        · left; rw [hd, hc, hg]
        · right
          exact ⟨"health_goal", g, _, Or.inr (Or.inr ⟨rfl, hgg, rfl⟩),
            by rw [hd, hc, hg]⟩
      · right
        exact ⟨"regional_cuisine", g, _, Or.inr (Or.inl ⟨rfl, hcg, rfl⟩),
          by rw [hd, hc]⟩
    · right
      exact ⟨"diet_preference", g, _, Or.inl ⟨rfl, hdg, rfl⟩, by rw [hd]⟩
  rcases extract_shape m c r with ⟨hn, nm, hout⟩ | hout | ⟨hn, nm, hout⟩
  · right; left; exact ⟨hn, nm, hout⟩
  · rcases hmain r [] (Or.inl ⟨rfl, rfl⟩) with h | ⟨k, g, r1, hk, h⟩
    · left; rw [hout, h]
    · right; right
      exact ⟨[], r, k, g, r1, Or.inl ⟨rfl, rfl⟩, hk, by rw [hout, h]⟩
  · rcases hmain { r with name := some (Val.s nm) } [("name", Val.s nm)]
        (Or.inr ⟨hn, nm, rfl, rfl⟩) with h | ⟨k, g, r1, hk, h⟩
    · right; left
      exact ⟨hn, nm, by rw [hout, h]⟩
    · right; right
      exact ⟨[("name", Val.s nm)], { r with name := some (Val.s nm) }, k, g, r1,
        Or.inr ⟨hn, nm, rfl, rfl⟩, hk, by rw [hout, h]⟩

theorem check_fields (r : UserRow) :
    (check_onboarding_complete r).name = r.name ∧
    (check_onboarding_complete r).diet_preference = r.diet_preference ∧
    (check_onboarding_complete r).regional_cuisine = r.regional_cuisine ∧
    (check_onboarding_complete r).health_goal = r.health_goal := by
  rw [check_eq]; split <;> exact ⟨rfl, rfl, rfl, rfl⟩

theorem check_flag_iff (r : UserRow) :
    truthy (check_onboarding_complete r).onboarding_complete = true ↔
      (truthy r.onboarding_complete = true ∨
        (truthy r.name = true ∧ truthy r.diet_preference = true ∧
         truthy r.health_goal = true)) := by
  rw [check_eq]; split <;> simp_all [truthy]

/-- C8: first-write-wins holds per field — once a field is truthy on the
profile snapshot, one extractor call neither updates nor overwrites that
field, regardless of the message and message count. -/
theorem c8_theorem (m : List Char) (c : Nat) (r : UserRow) :
    (truthy r.name = true →
      (extract_profile_info m c r).row.name = r.name ∧
      ∀ p ∈ (extract_profile_info m c r).updates, p.1 ≠ "name") ∧
    (truthy r.diet_preference = true →
      (extract_profile_info m c r).row.diet_preference = r.diet_preference ∧
      ∀ p ∈ (extract_profile_info m c r).updates, p.1 ≠ "diet_preference") ∧
    (truthy r.regional_cuisine = true →
      (extract_profile_info m c r).row.regional_cuisine = r.regional_cuisine ∧
      ∀ p ∈ (extract_profile_info m c r).updates, p.1 ≠ "regional_cuisine") ∧
    (truthy r.health_goal = true →
      (extract_profile_info m c r).row.health_goal = r.health_goal ∧
      ∀ p ∈ (extract_profile_info m c r).updates, p.1 ≠ "health_goal") := by
  rcases extract_cases m c r with hout | ⟨hn, nm, hout⟩ |
    ⟨u0, r0, k, g, r1, hu0, hk, hout⟩
  · rw [hout]; simp
  · rw [hout]; simp [hn]
  · rw [hout]
    have hcf := check_fields r1
    rcases hu0 with ⟨hu, hr0⟩ | ⟨hn, nm, hu, hr0⟩ <;>
      rcases hk with ⟨hk, hg, hr1⟩ | ⟨hk, hg, hr1⟩ | ⟨hk, hg, hr1⟩ <;>
        subst hu hr0 hk hr1 <;> simp_all

/-- C2 (amended): one extractor call issues at most two field writes, in
the priority order name → diet preference → regional cuisine → health
goal, each only for a field that was unset on the snapshot; two writes
occur exactly when the first is a heuristic name inference, which does
not end the call. -/
theorem c2_theorem (m : List Char) (c : Nat) (r : UserRow) :
    List.Sublist ((extract_profile_info m c r).updates.map Prod.fst)
      ["name", "diet_preference", "regional_cuisine", "health_goal"] ∧
    (extract_profile_info m c r).updates.length ≤ 2 ∧
    ((extract_profile_info m c r).updates.length = 2 →
      ∃ v p, (extract_profile_info m c r).updates = [("name", v), p]) ∧
    (∀ p ∈ (extract_profile_info m c r).updates,
      (p.1 = "name" → truthy r.name = false) ∧
      (p.1 = "diet_preference" → truthy r.diet_preference = false) ∧
      (p.1 = "regional_cuisine" → truthy r.regional_cuisine = false) ∧
      (p.1 = "health_goal" → truthy r.health_goal = false)) := by
  rcases extract_cases m c r with hout | ⟨hn, nm, hout⟩ |
    ⟨u0, r0, k, g, r1, hu0, hk, hout⟩
  · rw [hout]; simp
  · rw [hout]; simp [hn]
  · rw [hout]
    rcases hu0 with ⟨hu, hr0⟩ | ⟨hn, nm, hu, hr0⟩ <;>
      rcases hk with ⟨hk, hg, hr1⟩ | ⟨hk, hg, hr1⟩ | ⟨hk, hg, hr1⟩ <;>
        subst hu hk <;> simp_all

/-- C1 (amended): the extractor recomputes onboarding completeness only
when it writes diet preference, regional cuisine or health goal — then
the flag ends truthy iff it already was or name, diet preference and
health goal are all set — while a name-only call leaves the flag
untouched; the flag never reverts. -/
theorem c1_theorem (m : List Char) (c : Nat) (r : UserRow) :
    (truthy r.onboarding_complete = true →
      truthy (extract_profile_info m c r).row.onboarding_complete = true) ∧
    ((∃ p ∈ (extract_profile_info m c r).updates,
        p.1 = "diet_preference" ∨ p.1 = "regional_cuisine" ∨ p.1 = "health_goal") →
      (truthy (extract_profile_info m c r).row.onboarding_complete = true ↔
        (truthy r.onboarding_complete = true ∨
          (truthy (extract_profile_info m c r).row.name = true ∧
           truthy (extract_profile_info m c r).row.diet_preference = true ∧
           truthy (extract_profile_info m c r).row.health_goal = true)))) ∧
    ((∀ p ∈ (extract_profile_info m c r).updates, p.1 = "name") →
      (extract_profile_info m c r).row.onboarding_complete = r.onboarding_complete) := by
  rcases extract_cases m c r with hout | ⟨hn, nm, hout⟩ |
    ⟨u0, r0, k, g, r1, hu0, hk, hout⟩
  · rw [hout]; simp
  · rw [hout]; simp
  · rw [hout]
    have hcf := check_fields r1
    have hci := check_flag_iff r1
    rcases hu0 with ⟨hu, hr0⟩ | ⟨hn, nm, hu, hr0⟩ <;>
      rcases hk with ⟨hk, hg, hr1⟩ | ⟨hk, hg, hr1⟩ | ⟨hk, hg, hr1⟩ <;>
        subst hu hr0 hk hr1 <;> simp_all


/-- C1 counterexample: from a fresh contact, the messages "i eat meat",
"lose weight", "my name is Rahul" (completions succeeding) reach a store
whose profile has name, diet preference and health goal all set while
onboarding-complete is still falsy — the name branch never re-checks
completeness. -/
theorem c1_counterexample :
    ReachableSt stC ∧ stC.user = some rowC ∧
    truthy rowC.name = true ∧ truthy rowC.diet_preference = true ∧
    truthy rowC.health_goal = true ∧ truthy rowC.onboarding_complete = false :=
  ⟨ReachableSt.step envOk stB "my name is Rahul"
      (ReachableSt.step envOk stA "lose weight"
        (ReachableSt.step envOk {} "i eat meat" ReachableSt.init)),
   by decide, by decide, by decide, by decide, by decide⟩

/-- C1 witness: the completeness recomputation clause of `c1_theorem`
instantiated at the message "i eat meat" on a fresh profile. -/
theorem c1_witness :
    truthy ((extract_profile_info "i eat meat".data 1 (defaultRow "p")).row.onboarding_complete) = true ↔
      (truthy (defaultRow "p").onboarding_complete = true ∨
        (truthy ((extract_profile_info "i eat meat".data 1 (defaultRow "p")).row.name) = true ∧
         truthy ((extract_profile_info "i eat meat".data 1 (defaultRow "p")).row.diet_preference) = true ∧
         truthy ((extract_profile_info "i eat meat".data 1 (defaultRow "p")).row.health_goal) = true)) :=
  (c1_theorem ("i eat meat".data) 1 (defaultRow "p")).2.1 (by decide)

/-- C2 counterexample: the message "chicken" early in a conversation sets
both the heuristic name "Chicken" and the diet preference in a single
extractor call — more than one field update. -/
theorem c2_counterexample :
    (extract_profile_info "chicken".data 1 (defaultRow "p")).updates =
      [("name", Val.s "Chicken"), ("diet_preference", Val.s "non-vegetarian")] ∧
    ¬ (extract_profile_info "chicken".data 1 (defaultRow "p")).updates.length ≤ 1 := by
  decide

/-- C2 witness: the two-updates clause of `c2_theorem` at "chicken". -/
theorem c2_witness :
    ∃ v p, (extract_profile_info "chicken".data 1 (defaultRow "p")).updates =
      [("name", v), p] :=
  (c2_theorem ("chicken".data) 1 (defaultRow "p")).2.2.1 (by decide)

/-- C8 counterexample: with the message "punjabi chicken" the first call
sets the diet preference; a second call with the same message and the
updated profile sets the regional cuisine — a second update does occur. -/
theorem c8_counterexample :
    (extract_profile_info "punjabi chicken".data 3 (defaultRow "p")).updates =
      [("diet_preference", Val.s "non-vegetarian")] ∧
    (extract_profile_info "punjabi chicken".data 3
        (extract_profile_info "punjabi chicken".data 3 (defaultRow "p")).row).updates =
      [("regional_cuisine", Val.s "North Indian")] := by
  decide

/-- C8 witness: `c8_theorem` at a profile whose name is already set and
the message "vegetarian". -/
theorem c8_witness :
    (extract_profile_info "vegetarian".data 1
        { defaultRow "p" with name := some (Val.s "Rahul") }).row.name =
      some (Val.s "Rahul") ∧
    ∀ p ∈ (extract_profile_info "vegetarian".data 1
        { defaultRow "p" with name := some (Val.s "Rahul") }).updates,
      p.1 ≠ "name" :=
  (c8_theorem ("vegetarian".data) 1
    { defaultRow "p" with name := some (Val.s "Rahul") }).1 (by decide)

theorem parseGlasses_spec (cs : List Char) :
    1 ≤ parseGlasses cs ∧ parseGlasses cs ≤ 10 ∧
    (firstNumber cs = none → parseGlasses cs = 1) ∧
    (∀ n, firstNumber cs = some n → 1 ≤ n → n ≤ 10 → parseGlasses cs = n) ∧
    (∀ n, firstNumber cs = some n → (n < 1 ∨ 10 < n) → parseGlasses cs = 1) := by
  unfold parseGlasses
  cases h : firstNumber cs with
  | none => simp
  | some n =>
    simp only [h]
    by_cases hn : 1 ≤ n ∧ n ≤ 10
    · refine ⟨?_, ?_, by simp, ?_, ?_⟩
      · simp [hn]
      · simp [hn]
      · rintro n' hn' _ _; simp_all
      · rintro n' hn' hout; simp_all; omega
    · refine ⟨?_, ?_, by simp, ?_, ?_⟩
      · simp [hn]
      · simp [hn]
      · rintro n' hn' h1 h2; simp_all
      · rintro n' hn' hout; simp_all

/-- C3 (amended): on the water-log path the first integer found anywhere
in the message is taken as the glass count when it already lies in 1..10;
otherwise — including out-of-range values, which are not clamped — the
default 1 is used, and exactly one water entry with that count is
persisted. -/
theorem c3_theorem (msg : String) (st : St) (u : UserRow) :
    1 ≤ parseGlasses msg.data ∧ parseGlasses msg.data ≤ 10 ∧
    (firstNumber msg.data = none → parseGlasses msg.data = 1) ∧
    (∀ n, firstNumber msg.data = some n → 1 ≤ n → n ≤ 10 →
      parseGlasses msg.data = n) ∧
    (∀ n, firstNumber msg.data = some n → (n < 1 ∨ 10 < n) →
      parseGlasses msg.data = 1) ∧
    (handle_water_log st msg u).1.waterLogs =
      st.waterLogs ++ [parseGlasses msg.data] := by
  have hp := parseGlasses_spec msg.data
  exact ⟨hp.1, hp.2.1, hp.2.2.1, hp.2.2.2.1, hp.2.2.2.2,
    by simp [handle_water_log, saveMsg]⟩

/-- C3 counterexample: for "15 glasses of water" the program logs 1 glass
(out-of-range values fall back to the default), while the spec's clamping
rule would log 10. -/
theorem c3_counterexample :
    parseGlasses "15 glasses of water".data = 1 ∧
    specGlassCount "15 glasses of water".data = 10 ∧
    parseGlasses "15 glasses of water".data ≠
      specGlassCount "15 glasses of water".data := by
  decide

/-- C3 witness: `c3_theorem`'s in-range clause at "3 glasses of water". -/
theorem c3_witness : parseGlasses "3 glasses of water".data = 3 :=
  (c3_theorem ("3 glasses of water") {} (defaultRow "p")).2.2.2.1 3
    (by decide) (by decide) (by decide)

/-- C7: the hour-to-period mapping is total on 0..23 with values among
the 8 pairwise-distinct buckets, each bucket is hit exactly on its
half-open interval, and every boundary hour belongs to the upper
bucket. -/
theorem c7_theorem :
    (∀ h : Nat, h < 24 → periodFor h ∈ periodBuckets) ∧
    periodBuckets.Nodup ∧
    (∀ h : Nat, h < 24 →
      ((periodFor h = "early_morning" ↔ 5 ≤ h ∧ h < 8) ∧
       (periodFor h = "morning" ↔ 8 ≤ h ∧ h < 11) ∧
       (periodFor h = "pre_lunch" ↔ 11 ≤ h ∧ h < 13) ∧
       (periodFor h = "lunch" ↔ 13 ≤ h ∧ h < 15) ∧
       (periodFor h = "afternoon" ↔ 15 ≤ h ∧ h < 17) ∧
       (periodFor h = "evening" ↔ 17 ≤ h ∧ h < 20) ∧
       (periodFor h = "dinner" ↔ 20 ≤ h ∧ h < 22) ∧
       (periodFor h = "late_night" ↔ h < 5 ∨ 22 ≤ h))) ∧
    periodFor 5 = "early_morning" ∧ periodFor 8 = "morning" ∧
    periodFor 11 = "pre_lunch" ∧ periodFor 13 = "lunch" ∧
    periodFor 15 = "afternoon" ∧ periodFor 17 = "evening" ∧
    periodFor 20 = "dinner" ∧ periodFor 22 = "late_night" :=
  ⟨by decide, by decide, by decide, by decide, by decide, by decide,
   by decide, by decide, by decide, by decide, by decide⟩

/-- C7 witness: totality clause of `c7_theorem` at hour 7. -/
theorem c7_witness : periodFor 7 ∈ periodBuckets :=
  c7_theorem.1 7 (by decide)


theorem near_iff (t : Nat) :
    (((12 : Int) : ℚ) * (7 / 10) ≤ (t : ℚ)) ↔ 9 ≤ t := by
  rw [show ((12 : Int) : ℚ) * (7 / 10) = 42 / 5 by norm_num,
    div_le_iff₀ (by norm_num : (0:ℚ) < 5)]
  constructor
  · intro h
    have h1 : (42 : ℚ) ≤ ((t * 5 : Nat) : ℚ) := by push_cast; linarith
    have h2 : 42 ≤ t * 5 := by exact_mod_cast h1
    omega
  · intro h
    have h1 : (42 : ℚ) ≤ ((t * 5 : Nat) : ℚ) := by exact_mod_cast by omega
    push_cast at h1 ⊢
    linarith

/-- C9: with the stored goal of 3.0 liters the goal glass count is
`int(3.0 * 4) = 12`; the reply branch is picked by the day's new total
against 12 (congratulation at 100 percent, near-goal line from 70 percent,
i.e. 9 glasses, else the remaining-count line), and logging one glass on a
total of 11 yields 12 and the goal-hit reply. -/
theorem c9_theorem (st : St) (msg : String) (u : UserRow) (hg : goalOf u = 3) :
    pyIntQ ((3 : ℚ) * 4) = 12 ∧
    (handle_water_log st msg u).1.waterLogs =
      st.waterLogs ++ [parseGlasses msg.data] ∧
    (12 ≤ st.waterLogs.sum + parseGlasses msg.data →
      (handle_water_log st msg u).2 =
        s!"💧 Logged! You've had {st.waterLogs.sum + parseGlasses msg.data} glasses today — you've hit your goal! Awesome 👏") ∧
    (9 ≤ st.waterLogs.sum + parseGlasses msg.data →
      st.waterLogs.sum + parseGlasses msg.data < 12 →
      (handle_water_log st msg u).2 =
        s!"💧 Nice! {st.waterLogs.sum + parseGlasses msg.data} glasses done today. Almost at your goal of {(12 : Int)}! Keep going 💪") ∧
    (st.waterLogs.sum + parseGlasses msg.data < 9 →
      (handle_water_log st msg u).2 =
        s!"💧 Logged! {st.waterLogs.sum + parseGlasses msg.data} glasses so far today. About {(12 : Int) - (st.waterLogs.sum + parseGlasses msg.data : Nat)} more to hit your goal. You got this!") ∧
    (st.waterLogs.sum = 11 → (handle_water_log st "water" u).2 =
      "💧 Logged! You've had 12 glasses today — you've hit your goal! Awesome 👏") := by
  have h12 : pyIntQ (goalOf u * 4) = 12 := by
    rw [hg]; norm_num [pyIntQ]
  have h3 : pyIntQ ((3 : ℚ) * 4) = 12 := by norm_num [pyIntQ]
  unfold handle_water_log
  simp only [saveMsg, h12, List.sum_append, List.sum_cons, List.sum_nil, add_zero]
  refine ⟨h3, trivial, ?_, ?_, ?_, ?_⟩
  · intro h
    rw [if_pos (by exact_mod_cast h)]
  · intro h9 h12'
    rw [if_neg (by omega), if_pos ((near_iff _).mpr h9)]
  · intro h9
    rw [if_neg (by omega), if_neg (by rw [near_iff]; omega)]
  · intro hsum
    rw [hsum]
    decide

/-- C9 witness: the 11-plus-one-glass scenario of `c9_theorem` run on a
store whose water total is 11 with the default profile. -/
theorem c9_witness :
    (handle_water_log { waterLogs := [11] } "water" (defaultRow "p")).2 =
      "💧 Logged! You've had 12 glasses today — you've hit your goal! Awesome 👏" :=
  (c9_theorem { waterLogs := [11] } "water" (defaultRow "p")
    (by decide)).2.2.2.2.2 (by decide)


theorem setField_keeps_name (r : UserRow) (k : String) (v : Val)
    (h : k ≠ "name") : (setField r k v).name = r.name := by
  unfold setField
  rw [if_neg h]
  by_cases hage : k = "age"
  · rw [if_pos hage]
  rw [if_neg hage]
  by_cases hgender : k = "gender"
  · rw [if_pos hgender]
  rw [if_neg hgender]
  by_cases hdiet_preference : k = "diet_preference"
  · rw [if_pos hdiet_preference]
  rw [if_neg hdiet_preference]
  by_cases hregional_cuisine : k = "regional_cuisine"
  · rw [if_pos hregional_cuisine]
  rw [if_neg hregional_cuisine]
  by_cases hallergies : k = "allergies"
  · rw [if_pos hallergies]
  rw [if_neg hallergies]
  by_cases hhealth_goal : k = "health_goal"
  · rw [if_pos hhealth_goal]
  rw [if_neg hhealth_goal]
  by_cases hactivity_level : k = "activity_level"
  · rw [if_pos hactivity_level]
  rw [if_neg hactivity_level]
  by_cases hwake_time : k = "wake_time"
  · rw [if_pos hwake_time]
  rw [if_neg hwake_time]
  by_cases hsleep_time : k = "sleep_time"
  · rw [if_pos hsleep_time]
  rw [if_neg hsleep_time]
  by_cases hwater_goal_liters : k = "water_goal_liters"
  · rw [if_pos hwater_goal_liters]
  rw [if_neg hwater_goal_liters]
  by_cases honboarding_complete : k = "onboarding_complete"
  · rw [if_pos honboarding_complete]
  rw [if_neg honboarding_complete]

theorem setField_keeps_age (r : UserRow) (k : String) (v : Val)
    (h : k ≠ "age") : (setField r k v).age = r.age := by
  unfold setField
  by_cases hname : k = "name"
  · rw [if_pos hname]
  rw [if_neg hname]
  rw [if_neg h]
  by_cases hgender : k = "gender"
  · rw [if_pos hgender]
  rw [if_neg hgender]
  by_cases hdiet_preference : k = "diet_preference"
  · rw [if_pos hdiet_preference]
  rw [if_neg hdiet_preference]
  by_cases hregional_cuisine : k = "regional_cuisine"
  · rw [if_pos hregional_cuisine]
  rw [if_neg hregional_cuisine]
  by_cases hallergies : k = "allergies"
  · rw [if_pos hallergies]
  rw [if_neg hallergies]
  by_cases hhealth_goal : k = "health_goal"
  · rw [if_pos hhealth_goal]
  rw [if_neg hhealth_goal]
  by_cases hactivity_level : k = "activity_level"
  · rw [if_pos hactivity_level]
  rw [if_neg hactivity_level]
  by_cases hwake_time : k = "wake_time"
  · rw [if_pos hwake_time]
  rw [if_neg hwake_time]
  by_cases hsleep_time : k = "sleep_time"
  · rw [if_pos hsleep_time]
  rw [if_neg hsleep_time]
  by_cases hwater_goal_liters : k = "water_goal_liters"
  · rw [if_pos hwater_goal_liters]
  rw [if_neg hwater_goal_liters]
  by_cases honboarding_complete : k = "onboarding_complete"
  · rw [if_pos honboarding_complete]
  rw [if_neg honboarding_complete]

theorem setField_keeps_gender (r : UserRow) (k : String) (v : Val)
    (h : k ≠ "gender") : (setField r k v).gender = r.gender := by
  unfold setField
  by_cases hname : k = "name"
  · rw [if_pos hname]
  rw [if_neg hname]
  by_cases hage : k = "age"
  · rw [if_pos hage]
  rw [if_neg hage]
  rw [if_neg h]
  by_cases hdiet_preference : k = "diet_preference"
  · rw [if_pos hdiet_preference]
  rw [if_neg hdiet_preference]
  by_cases hregional_cuisine : k = "regional_cuisine"
  · rw [if_pos hregional_cuisine]
  rw [if_neg hregional_cuisine]
  by_cases hallergies : k = "allergies"
  · rw [if_pos hallergies]
  rw [if_neg hallergies]
  by_cases hhealth_goal : k = "health_goal"
  · rw [if_pos hhealth_goal]
  rw [if_neg hhealth_goal]
  by_cases hactivity_level : k = "activity_level"
  · rw [if_pos hactivity_level]
  rw [if_neg hactivity_level]
  by_cases hwake_time : k = "wake_time"
  · rw [if_pos hwake_time]
  rw [if_neg hwake_time]
  by_cases hsleep_time : k = "sleep_time"
  · rw [if_pos hsleep_time]
  rw [if_neg hsleep_time]
  by_cases hwater_goal_liters : k = "water_goal_liters"
  · rw [if_pos hwater_goal_liters]
  rw [if_neg hwater_goal_liters]
  by_cases honboarding_complete : k = "onboarding_complete"
  · rw [if_pos honboarding_complete]
  rw [if_neg honboarding_complete]

theorem setField_keeps_diet_preference (r : UserRow) (k : String) (v : Val)
    (h : k ≠ "diet_preference") : (setField r k v).diet_preference = r.diet_preference := by
  unfold setField
  by_cases hname : k = "name"
  · rw [if_pos hname]
  rw [if_neg hname]
  by_cases hage : k = "age"
  · rw [if_pos hage]
  rw [if_neg hage]
  by_cases hgender : k = "gender"
  · rw [if_pos hgender]
  rw [if_neg hgender]
  rw [if_neg h]
  by_cases hregional_cuisine : k = "regional_cuisine"
  · rw [if_pos hregional_cuisine]
  rw [if_neg hregional_cuisine]
  by_cases hallergies : k = "allergies"
  · rw [if_pos hallergies]
  rw [if_neg hallergies]
  by_cases hhealth_goal : k = "health_goal"
  · rw [if_pos hhealth_goal]
  rw [if_neg hhealth_goal]
  by_cases hactivity_level : k = "activity_level"
  · rw [if_pos hactivity_level]
  rw [if_neg hactivity_level]
  by_cases hwake_time : k = "wake_time"
  · rw [if_pos hwake_time]
  rw [if_neg hwake_time]
  by_cases hsleep_time : k = "sleep_time"
  · rw [if_pos hsleep_time]
  rw [if_neg hsleep_time]
  by_cases hwater_goal_liters : k = "water_goal_liters"
  · rw [if_pos hwater_goal_liters]
  rw [if_neg hwater_goal_liters]
  by_cases honboarding_complete : k = "onboarding_complete"
  · rw [if_pos honboarding_complete]
  rw [if_neg honboarding_complete]

theorem setField_keeps_regional_cuisine (r : UserRow) (k : String) (v : Val)
    (h : k ≠ "regional_cuisine") : (setField r k v).regional_cuisine = r.regional_cuisine := by
  unfold setField
  by_cases hname : k = "name"
  · rw [if_pos hname]
  rw [if_neg hname]
  by_cases hage : k = "age"
  · rw [if_pos hage]
  rw [if_neg hage]
  by_cases hgender : k = "gender"
  · rw [if_pos hgender]
  rw [if_neg hgender]
  by_cases hdiet_preference : k = "diet_preference"
  · rw [if_pos hdiet_preference]
  rw [if_neg hdiet_preference]
  rw [if_neg h]
  by_cases hallergies : k = "allergies"
  · rw [if_pos hallergies]
  rw [if_neg hallergies]
  by_cases hhealth_goal : k = "health_goal"
  · rw [if_pos hhealth_goal]
  rw [if_neg hhealth_goal]
  by_cases hactivity_level : k = "activity_level"
  · rw [if_pos hactivity_level]
  rw [if_neg hactivity_level]
  by_cases hwake_time : k = "wake_time"
  · rw [if_pos hwake_time]
  rw [if_neg hwake_time]
  by_cases hsleep_time : k = "sleep_time"
  · rw [if_pos hsleep_time]
  rw [if_neg hsleep_time]
  by_cases hwater_goal_liters : k = "water_goal_liters"
  · rw [if_pos hwater_goal_liters]
  rw [if_neg hwater_goal_liters]
  by_cases honboarding_complete : k = "onboarding_complete"
  · rw [if_pos honboarding_complete]
  rw [if_neg honboarding_complete]

theorem setField_keeps_allergies (r : UserRow) (k : String) (v : Val)
    (h : k ≠ "allergies") : (setField r k v).allergies = r.allergies := by
  unfold setField
  by_cases hname : k = "name"
  · rw [if_pos hname]
  rw [if_neg hname]
  by_cases hage : k = "age"
  · rw [if_pos hage]
  rw [if_neg hage]
  by_cases hgender : k = "gender"
  · rw [if_pos hgender]
  rw [if_neg hgender]
  by_cases hdiet_preference : k = "diet_preference"
  · rw [if_pos hdiet_preference]
  rw [if_neg hdiet_preference]
  by_cases hregional_cuisine : k = "regional_cuisine"
  · rw [if_pos hregional_cuisine]
  rw [if_neg hregional_cuisine]
  rw [if_neg h]
  by_cases hhealth_goal : k = "health_goal"
  · rw [if_pos hhealth_goal]
  rw [if_neg hhealth_goal]
  by_cases hactivity_level : k = "activity_level"
  · rw [if_pos hactivity_level]
  rw [if_neg hactivity_level]
  by_cases hwake_time : k = "wake_time"
  · rw [if_pos hwake_time]
  rw [if_neg hwake_time]
  by_cases hsleep_time : k = "sleep_time"
  · rw [if_pos hsleep_time]
  rw [if_neg hsleep_time]
  by_cases hwater_goal_liters : k = "water_goal_liters"
  · rw [if_pos hwater_goal_liters]
  rw [if_neg hwater_goal_liters]
  by_cases honboarding_complete : k = "onboarding_complete"
  · rw [if_pos honboarding_complete]
  rw [if_neg honboarding_complete]

theorem setField_keeps_health_goal (r : UserRow) (k : String) (v : Val)
    (h : k ≠ "health_goal") : (setField r k v).health_goal = r.health_goal := by
  unfold setField
  by_cases hname : k = "name"
  · rw [if_pos hname]
  rw [if_neg hname]
  by_cases hage : k = "age"
  · rw [if_pos hage]
  rw [if_neg hage]
  by_cases hgender : k = "gender"
  · rw [if_pos hgender]
  rw [if_neg hgender]
  by_cases hdiet_preference : k = "diet_preference"
  · rw [if_pos hdiet_preference]
  rw [if_neg hdiet_preference]
  by_cases hregional_cuisine : k = "regional_cuisine"
  · rw [if_pos hregional_cuisine]
  rw [if_neg hregional_cuisine]
  by_cases hallergies : k = "allergies"
  · rw [if_pos hallergies]
  rw [if_neg hallergies]
  rw [if_neg h]
  by_cases hactivity_level : k = "activity_level"
  · rw [if_pos hactivity_level]
  rw [if_neg hactivity_level]
  by_cases hwake_time : k = "wake_time"
  · rw [if_pos hwake_time]
  rw [if_neg hwake_time]
  by_cases hsleep_time : k = "sleep_time"
  · rw [if_pos hsleep_time]
  rw [if_neg hsleep_time]
  by_cases hwater_goal_liters : k = "water_goal_liters"
  · rw [if_pos hwater_goal_liters]
  rw [if_neg hwater_goal_liters]
  by_cases honboarding_complete : k = "onboarding_complete"
  · rw [if_pos honboarding_complete]
  rw [if_neg honboarding_complete]

theorem setField_keeps_activity_level (r : UserRow) (k : String) (v : Val)
    (h : k ≠ "activity_level") : (setField r k v).activity_level = r.activity_level := by
  unfold setField
  by_cases hname : k = "name"
  · rw [if_pos hname]
  rw [if_neg hname]
  by_cases hage : k = "age"
  · rw [if_pos hage]
  rw [if_neg hage]
  by_cases hgender : k = "gender"
  · rw [if_pos hgender]
  rw [if_neg hgender]
  by_cases hdiet_preference : k = "diet_preference"
  · rw [if_pos hdiet_preference]
  rw [if_neg hdiet_preference]
  by_cases hregional_cuisine : k = "regional_cuisine"
  · rw [if_pos hregional_cuisine]
  rw [if_neg hregional_cuisine]
  by_cases hallergies : k = "allergies"
  · rw [if_pos hallergies]
  rw [if_neg hallergies]
  by_cases hhealth_goal : k = "health_goal"
  · rw [if_pos hhealth_goal]
  rw [if_neg hhealth_goal]
  rw [if_neg h]
  by_cases hwake_time : k = "wake_time"
  · rw [if_pos hwake_time]
  rw [if_neg hwake_time]
  by_cases hsleep_time : k = "sleep_time"
  · rw [if_pos hsleep_time]
  rw [if_neg hsleep_time]
  by_cases hwater_goal_liters : k = "water_goal_liters"
  · rw [if_pos hwater_goal_liters]
  rw [if_neg hwater_goal_liters]
  by_cases honboarding_complete : k = "onboarding_complete"
  · rw [if_pos honboarding_complete]
  rw [if_neg honboarding_complete]

theorem setField_keeps_wake_time (r : UserRow) (k : String) (v : Val)
    (h : k ≠ "wake_time") : (setField r k v).wake_time = r.wake_time := by
  unfold setField
  by_cases hname : k = "name"
  · rw [if_pos hname]
  rw [if_neg hname]
  by_cases hage : k = "age"
  · rw [if_pos hage]
  rw [if_neg hage]
  by_cases hgender : k = "gender"
  · rw [if_pos hgender]
  rw [if_neg hgender]
  by_cases hdiet_preference : k = "diet_preference"
  · rw [if_pos hdiet_preference]
  rw [if_neg hdiet_preference]
  by_cases hregional_cuisine : k = "regional_cuisine"
  · rw [if_pos hregional_cuisine]
  rw [if_neg hregional_cuisine]
  by_cases hallergies : k = "allergies"
  · rw [if_pos hallergies]
  rw [if_neg hallergies]
  by_cases hhealth_goal : k = "health_goal"
  · rw [if_pos hhealth_goal]
  rw [if_neg hhealth_goal]
  by_cases hactivity_level : k = "activity_level"
  · rw [if_pos hactivity_level]
  rw [if_neg hactivity_level]
  rw [if_neg h]
  by_cases hsleep_time : k = "sleep_time"
  · rw [if_pos hsleep_time]
  rw [if_neg hsleep_time]
  by_cases hwater_goal_liters : k = "water_goal_liters"
  · rw [if_pos hwater_goal_liters]
  rw [if_neg hwater_goal_liters]
  by_cases honboarding_complete : k = "onboarding_complete"
  · rw [if_pos honboarding_complete]
  rw [if_neg honboarding_complete]

theorem setField_keeps_sleep_time (r : UserRow) (k : String) (v : Val)
    (h : k ≠ "sleep_time") : (setField r k v).sleep_time = r.sleep_time := by
  unfold setField
  by_cases hname : k = "name"
  · rw [if_pos hname]
  rw [if_neg hname]
  by_cases hage : k = "age"
  · rw [if_pos hage]
  rw [if_neg hage]
  by_cases hgender : k = "gender"
  · rw [if_pos hgender]
  rw [if_neg hgender]
  by_cases hdiet_preference : k = "diet_preference"
  · rw [if_pos hdiet_preference]
  rw [if_neg hdiet_preference]
  by_cases hregional_cuisine : k = "regional_cuisine"
  · rw [if_pos hregional_cuisine]
  rw [if_neg hregional_cuisine]
  by_cases hallergies : k = "allergies"
  · rw [if_pos hallergies]
  rw [if_neg hallergies]
  by_cases hhealth_goal : k = "health_goal"
  · rw [if_pos hhealth_goal]
  rw [if_neg hhealth_goal]
  by_cases hactivity_level : k = "activity_level"
  · rw [if_pos hactivity_level]
  rw [if_neg hactivity_level]
  by_cases hwake_time : k = "wake_time"
  · rw [if_pos hwake_time]
  rw [if_neg hwake_time]
  rw [if_neg h]
  by_cases hwater_goal_liters : k = "water_goal_liters"
  · rw [if_pos hwater_goal_liters]
  rw [if_neg hwater_goal_liters]
  by_cases honboarding_complete : k = "onboarding_complete"
  · rw [if_pos honboarding_complete]
  rw [if_neg honboarding_complete]

theorem setField_keeps_water_goal_liters (r : UserRow) (k : String) (v : Val)
    (h : k ≠ "water_goal_liters") : (setField r k v).water_goal_liters = r.water_goal_liters := by
  unfold setField
  by_cases hname : k = "name"
  · rw [if_pos hname]
  rw [if_neg hname]
  by_cases hage : k = "age"
  · rw [if_pos hage]
  rw [if_neg hage]
  by_cases hgender : k = "gender"
  · rw [if_pos hgender]
  rw [if_neg hgender]
  by_cases hdiet_preference : k = "diet_preference"
  · rw [if_pos hdiet_preference]
  rw [if_neg hdiet_preference]
  by_cases hregional_cuisine : k = "regional_cuisine"
  · rw [if_pos hregional_cuisine]
  rw [if_neg hregional_cuisine]
  by_cases hallergies : k = "allergies"
  · rw [if_pos hallergies]
  rw [if_neg hallergies]
  by_cases hhealth_goal : k = "health_goal"
  · rw [if_pos hhealth_goal]
  rw [if_neg hhealth_goal]
  by_cases hactivity_level : k = "activity_level"
  · rw [if_pos hactivity_level]
  rw [if_neg hactivity_level]
  by_cases hwake_time : k = "wake_time"
  · rw [if_pos hwake_time]
  rw [if_neg hwake_time]
  by_cases hsleep_time : k = "sleep_time"
  · rw [if_pos hsleep_time]
  rw [if_neg hsleep_time]
  rw [if_neg h]
  by_cases honboarding_complete : k = "onboarding_complete"
  · rw [if_pos honboarding_complete]
  rw [if_neg honboarding_complete]

theorem setField_keeps_onboarding_complete (r : UserRow) (k : String) (v : Val)
    (h : k ≠ "onboarding_complete") : (setField r k v).onboarding_complete = r.onboarding_complete := by
  unfold setField
  by_cases hname : k = "name"
  · rw [if_pos hname]
  rw [if_neg hname]
  by_cases hage : k = "age"
  · rw [if_pos hage]
  rw [if_neg hage]
  by_cases hgender : k = "gender"
  · rw [if_pos hgender]
  rw [if_neg hgender]
  by_cases hdiet_preference : k = "diet_preference"
  · rw [if_pos hdiet_preference]
  rw [if_neg hdiet_preference]
  by_cases hregional_cuisine : k = "regional_cuisine"
  · rw [if_pos hregional_cuisine]
  rw [if_neg hregional_cuisine]
  by_cases hallergies : k = "allergies"
  · rw [if_pos hallergies]
  rw [if_neg hallergies]
  by_cases hhealth_goal : k = "health_goal"
  · rw [if_pos hhealth_goal]
  rw [if_neg hhealth_goal]
  by_cases hactivity_level : k = "activity_level"
  · rw [if_pos hactivity_level]
  rw [if_neg hactivity_level]
  by_cases hwake_time : k = "wake_time"
  · rw [if_pos hwake_time]
  rw [if_neg hwake_time]
  by_cases hsleep_time : k = "sleep_time"
  · rw [if_pos hsleep_time]
  rw [if_neg hsleep_time]
  by_cases hwater_goal_liters : k = "water_goal_liters"
  · rw [if_pos hwater_goal_liters]
  rw [if_neg hwater_goal_liters]
  rw [if_neg h]

theorem setField_frame (r : UserRow) (k : String) (v : Val) :
    (setField r k v).phone = r.phone ∧
    (setField r k v).created_at = r.created_at ∧
    (setField r k v).last_active = r.last_active := by
  unfold setField
  by_cases hname : k = "name"
  · rw [if_pos hname]; exact ⟨rfl, rfl, rfl⟩
  rw [if_neg hname]
  by_cases hage : k = "age"
  · rw [if_pos hage]; exact ⟨rfl, rfl, rfl⟩
  rw [if_neg hage]
  by_cases hgender : k = "gender"
  · rw [if_pos hgender]; exact ⟨rfl, rfl, rfl⟩
  rw [if_neg hgender]
  by_cases hdiet_preference : k = "diet_preference"
  · rw [if_pos hdiet_preference]; exact ⟨rfl, rfl, rfl⟩
  rw [if_neg hdiet_preference]
  by_cases hregional_cuisine : k = "regional_cuisine"
  · rw [if_pos hregional_cuisine]; exact ⟨rfl, rfl, rfl⟩
  rw [if_neg hregional_cuisine]
  by_cases hallergies : k = "allergies"
  · rw [if_pos hallergies]; exact ⟨rfl, rfl, rfl⟩
  rw [if_neg hallergies]
  by_cases hhealth_goal : k = "health_goal"
  · rw [if_pos hhealth_goal]; exact ⟨rfl, rfl, rfl⟩
  rw [if_neg hhealth_goal]
  by_cases hactivity_level : k = "activity_level"
  · rw [if_pos hactivity_level]; exact ⟨rfl, rfl, rfl⟩
  rw [if_neg hactivity_level]
  by_cases hwake_time : k = "wake_time"
  · rw [if_pos hwake_time]; exact ⟨rfl, rfl, rfl⟩
  rw [if_neg hwake_time]
  by_cases hsleep_time : k = "sleep_time"
  · rw [if_pos hsleep_time]; exact ⟨rfl, rfl, rfl⟩
  rw [if_neg hsleep_time]
  by_cases hwater_goal_liters : k = "water_goal_liters"
  · rw [if_pos hwater_goal_liters]; exact ⟨rfl, rfl, rfl⟩
  rw [if_neg hwater_goal_liters]
  by_cases honboarding_complete : k = "onboarding_complete"
  · rw [if_pos honboarding_complete]; exact ⟨rfl, rfl, rfl⟩
  rw [if_neg honboarding_complete]
  exact ⟨rfl, rfl, rfl⟩

theorem foldl_keeps_name (l : List (String × Val)) (r : UserRow)
    (h : ∀ kv ∈ l, kv.1 ≠ "name") :
    (l.foldl (fun acc kv => setField acc kv.1 kv.2) r).name = r.name := by
  induction l generalizing r with
  | nil => rfl
  | cons a t ih =>
    simp only [List.foldl_cons]
    rw [ih _ (fun kv hm => h kv (List.mem_cons_of_mem a hm)),
      setField_keeps_name r a.1 a.2 (h a (List.mem_cons_self a t))]

theorem foldl_keeps_age (l : List (String × Val)) (r : UserRow)
    (h : ∀ kv ∈ l, kv.1 ≠ "age") :
    (l.foldl (fun acc kv => setField acc kv.1 kv.2) r).age = r.age := by
  induction l generalizing r with
  | nil => rfl
  | cons a t ih =>
    simp only [List.foldl_cons]
    rw [ih _ (fun kv hm => h kv (List.mem_cons_of_mem a hm)),
      setField_keeps_age r a.1 a.2 (h a (List.mem_cons_self a t))]

theorem foldl_keeps_gender (l : List (String × Val)) (r : UserRow)
    (h : ∀ kv ∈ l, kv.1 ≠ "gender") :
    (l.foldl (fun acc kv => setField acc kv.1 kv.2) r).gender = r.gender := by
  induction l generalizing r with
  | nil => rfl
  | cons a t ih =>
    simp only [List.foldl_cons]
    rw [ih _ (fun kv hm => h kv (List.mem_cons_of_mem a hm)),
      setField_keeps_gender r a.1 a.2 (h a (List.mem_cons_self a t))]

theorem foldl_keeps_diet_preference (l : List (String × Val)) (r : UserRow)
    (h : ∀ kv ∈ l, kv.1 ≠ "diet_preference") :
    (l.foldl (fun acc kv => setField acc kv.1 kv.2) r).diet_preference = r.diet_preference := by
  induction l generalizing r with
  | nil => rfl
  | cons a t ih =>
    simp only [List.foldl_cons]
    rw [ih _ (fun kv hm => h kv (List.mem_cons_of_mem a hm)),
      setField_keeps_diet_preference r a.1 a.2 (h a (List.mem_cons_self a t))]

theorem foldl_keeps_regional_cuisine (l : List (String × Val)) (r : UserRow)
    (h : ∀ kv ∈ l, kv.1 ≠ "regional_cuisine") :
    (l.foldl (fun acc kv => setField acc kv.1 kv.2) r).regional_cuisine = r.regional_cuisine := by
  induction l generalizing r with
  | nil => rfl
  | cons a t ih =>
    simp only [List.foldl_cons]
    rw [ih _ (fun kv hm => h kv (List.mem_cons_of_mem a hm)),
      setField_keeps_regional_cuisine r a.1 a.2 (h a (List.mem_cons_self a t))]

theorem foldl_keeps_allergies (l : List (String × Val)) (r : UserRow)
    (h : ∀ kv ∈ l, kv.1 ≠ "allergies") :
    (l.foldl (fun acc kv => setField acc kv.1 kv.2) r).allergies = r.allergies := by
  induction l generalizing r with
  | nil => rfl
  | cons a t ih =>
    simp only [List.foldl_cons]
    rw [ih _ (fun kv hm => h kv (List.mem_cons_of_mem a hm)),
      setField_keeps_allergies r a.1 a.2 (h a (List.mem_cons_self a t))]

theorem foldl_keeps_health_goal (l : List (String × Val)) (r : UserRow)
    (h : ∀ kv ∈ l, kv.1 ≠ "health_goal") :
    (l.foldl (fun acc kv => setField acc kv.1 kv.2) r).health_goal = r.health_goal := by
  induction l generalizing r with
  | nil => rfl
  | cons a t ih =>
    simp only [List.foldl_cons]
    rw [ih _ (fun kv hm => h kv (List.mem_cons_of_mem a hm)),
      setField_keeps_health_goal r a.1 a.2 (h a (List.mem_cons_self a t))]

theorem foldl_keeps_activity_level (l : List (String × Val)) (r : UserRow)
    (h : ∀ kv ∈ l, kv.1 ≠ "activity_level") :
    (l.foldl (fun acc kv => setField acc kv.1 kv.2) r).activity_level = r.activity_level := by
  induction l generalizing r with
  | nil => rfl
  | cons a t ih =>
    simp only [List.foldl_cons]
    rw [ih _ (fun kv hm => h kv (List.mem_cons_of_mem a hm)),
      setField_keeps_activity_level r a.1 a.2 (h a (List.mem_cons_self a t))]

theorem foldl_keeps_wake_time (l : List (String × Val)) (r : UserRow)
    (h : ∀ kv ∈ l, kv.1 ≠ "wake_time") :
    (l.foldl (fun acc kv => setField acc kv.1 kv.2) r).wake_time = r.wake_time := by
  induction l generalizing r with
  | nil => rfl
  | cons a t ih =>
    simp only [List.foldl_cons]
    rw [ih _ (fun kv hm => h kv (List.mem_cons_of_mem a hm)),
      setField_keeps_wake_time r a.1 a.2 (h a (List.mem_cons_self a t))]

theorem foldl_keeps_sleep_time (l : List (String × Val)) (r : UserRow)
    (h : ∀ kv ∈ l, kv.1 ≠ "sleep_time") :
    (l.foldl (fun acc kv => setField acc kv.1 kv.2) r).sleep_time = r.sleep_time := by
  induction l generalizing r with
  | nil => rfl
  | cons a t ih =>
    simp only [List.foldl_cons]
    rw [ih _ (fun kv hm => h kv (List.mem_cons_of_mem a hm)),
      setField_keeps_sleep_time r a.1 a.2 (h a (List.mem_cons_self a t))]

theorem foldl_keeps_water_goal_liters (l : List (String × Val)) (r : UserRow)
    (h : ∀ kv ∈ l, kv.1 ≠ "water_goal_liters") :
    (l.foldl (fun acc kv => setField acc kv.1 kv.2) r).water_goal_liters = r.water_goal_liters := by
  induction l generalizing r with
  | nil => rfl
  | cons a t ih =>
    simp only [List.foldl_cons]
    rw [ih _ (fun kv hm => h kv (List.mem_cons_of_mem a hm)),
      setField_keeps_water_goal_liters r a.1 a.2 (h a (List.mem_cons_self a t))]

theorem foldl_keeps_onboarding_complete (l : List (String × Val)) (r : UserRow)
    (h : ∀ kv ∈ l, kv.1 ≠ "onboarding_complete") :
    (l.foldl (fun acc kv => setField acc kv.1 kv.2) r).onboarding_complete = r.onboarding_complete := by
  induction l generalizing r with
  | nil => rfl
  | cons a t ih =>
    simp only [List.foldl_cons]
    rw [ih _ (fun kv hm => h kv (List.mem_cons_of_mem a hm)),
      setField_keeps_onboarding_complete r a.1 a.2 (h a (List.mem_cons_self a t))]

theorem foldl_frame (l : List (String × Val)) (r : UserRow) :
    (l.foldl (fun acc kv => setField acc kv.1 kv.2) r).phone = r.phone ∧
    (l.foldl (fun acc kv => setField acc kv.1 kv.2) r).created_at = r.created_at ∧
    (l.foldl (fun acc kv => setField acc kv.1 kv.2) r).last_active = r.last_active := by
  induction l generalizing r with
  | nil => exact ⟨rfl, rfl, rfl⟩
  | cons a t ih =>
    simp only [List.foldl_cons]
    have h1 := setField_frame r a.1 a.2
    have h2 := ih (setField r a.1 a.2)
    exact ⟨h2.1.trans h1.1, h2.2.1.trans h1.2.1, h2.2.2.trans h1.2.2⟩

theorem filterUpdates_mem (kwargs : List (String × Option Val))
    (kv : String × Val) (h : kv ∈ filterUpdates kwargs) :
    (kv.1, some kv.2) ∈ kwargs := by
  unfold filterUpdates at h
  rw [List.mem_filterMap] at h
  rcases h with ⟨⟨k', v'⟩, ha, hf⟩
  cases v' with
  | none => simp at hf
  | some v =>
    simp only at hf
    split at hf
    · cases hf; exact ha
    · cases hf

/-- C10: a profile update writes only whitelisted keys carrying non-None
values: the contact key and the non-whitelisted columns are never written,
every field without a non-None argument keeps its value, and a call whose
arguments all filter away leaves the row unchanged. -/
theorem c10_theorem (r : UserRow) (kwargs : List (String × Option Val)) :
    (update_user_profile r kwargs).phone = r.phone ∧
    (update_user_profile r kwargs).created_at = r.created_at ∧
    (update_user_profile r kwargs).last_active = r.last_active ∧
    ((∀ kv ∈ kwargs, kv.1 = "name" → kv.2 = none) →
      (update_user_profile r kwargs).name = r.name) ∧
    ((∀ kv ∈ kwargs, kv.1 = "age" → kv.2 = none) →
      (update_user_profile r kwargs).age = r.age) ∧
    ((∀ kv ∈ kwargs, kv.1 = "gender" → kv.2 = none) →
      (update_user_profile r kwargs).gender = r.gender) ∧
    ((∀ kv ∈ kwargs, kv.1 = "diet_preference" → kv.2 = none) →
      (update_user_profile r kwargs).diet_preference = r.diet_preference) ∧
    ((∀ kv ∈ kwargs, kv.1 = "regional_cuisine" → kv.2 = none) →
      (update_user_profile r kwargs).regional_cuisine = r.regional_cuisine) ∧
    ((∀ kv ∈ kwargs, kv.1 = "allergies" → kv.2 = none) →
      (update_user_profile r kwargs).allergies = r.allergies) ∧
    ((∀ kv ∈ kwargs, kv.1 = "health_goal" → kv.2 = none) →
      (update_user_profile r kwargs).health_goal = r.health_goal) ∧
    ((∀ kv ∈ kwargs, kv.1 = "activity_level" → kv.2 = none) →
      (update_user_profile r kwargs).activity_level = r.activity_level) ∧
    ((∀ kv ∈ kwargs, kv.1 = "wake_time" → kv.2 = none) →
      (update_user_profile r kwargs).wake_time = r.wake_time) ∧
    ((∀ kv ∈ kwargs, kv.1 = "sleep_time" → kv.2 = none) →
      (update_user_profile r kwargs).sleep_time = r.sleep_time) ∧
    ((∀ kv ∈ kwargs, kv.1 = "water_goal_liters" → kv.2 = none) →
      (update_user_profile r kwargs).water_goal_liters = r.water_goal_liters) ∧
    ((∀ kv ∈ kwargs, kv.1 = "onboarding_complete" → kv.2 = none) →
      (update_user_profile r kwargs).onboarding_complete = r.onboarding_complete) ∧
    (filterUpdates kwargs = [] → update_user_profile r kwargs = r) := by
  unfold update_user_profile
  refine ⟨(foldl_frame _ r).1, (foldl_frame _ r).2.1, (foldl_frame _ r).2.2,
    ?_, ?_, ?_, ?_, ?_, ?_, ?_, ?_, ?_, ?_, ?_, ?_, ?_⟩
  · intro hk
    refine foldl_keeps_name _ r ?_
    intro kv hm he
    cases hk (kv.1, some kv.2) (filterUpdates_mem kwargs kv hm) he
  · intro hk
    refine foldl_keeps_age _ r ?_
    intro kv hm he
    cases hk (kv.1, some kv.2) (filterUpdates_mem kwargs kv hm) he
  · intro hk
    refine foldl_keeps_gender _ r ?_
    intro kv hm he
    cases hk (kv.1, some kv.2) (filterUpdates_mem kwargs kv hm) he
  · intro hk
    refine foldl_keeps_diet_preference _ r ?_
    intro kv hm he
    cases hk (kv.1, some kv.2) (filterUpdates_mem kwargs kv hm) he
  · intro hk
    refine foldl_keeps_regional_cuisine _ r ?_
    intro kv hm he
    cases hk (kv.1, some kv.2) (filterUpdates_mem kwargs kv hm) he
  · intro hk
    refine foldl_keeps_allergies _ r ?_
    intro kv hm he
    cases hk (kv.1, some kv.2) (filterUpdates_mem kwargs kv hm) he
  · intro hk
    refine foldl_keeps_health_goal _ r ?_
    intro kv hm he
    cases hk (kv.1, some kv.2) (filterUpdates_mem kwargs kv hm) he
  · intro hk
    refine foldl_keeps_activity_level _ r ?_
    intro kv hm he
    cases hk (kv.1, some kv.2) (filterUpdates_mem kwargs kv hm) he
  · intro hk
    refine foldl_keeps_wake_time _ r ?_
    intro kv hm he
    cases hk (kv.1, some kv.2) (filterUpdates_mem kwargs kv hm) he
  · intro hk
    refine foldl_keeps_sleep_time _ r ?_
    intro kv hm he
    cases hk (kv.1, some kv.2) (filterUpdates_mem kwargs kv hm) he
  · intro hk
    refine foldl_keeps_water_goal_liters _ r ?_
    intro kv hm he
    cases hk (kv.1, some kv.2) (filterUpdates_mem kwargs kv hm) he
  · intro hk
    refine foldl_keeps_onboarding_complete _ r ?_
    intro kv hm he
    cases hk (kv.1, some kv.2) (filterUpdates_mem kwargs kv hm) he
  · intro h
    rw [h]; rfl

/-- C10 witness: an update carrying one valid write, one non-whitelisted
key and one None value leaves diet preference (and the contact key)
unchanged. -/
theorem c10_witness :
    (update_user_profile (defaultRow "p")
        [("name", some (Val.s "A")), ("bogus", some (Val.i 1)), ("age", none)]).diet_preference =
      (defaultRow "p").diet_preference ∧
    (update_user_profile (defaultRow "p")
        [("name", some (Val.s "A")), ("bogus", some (Val.i 1)), ("age", none)]).phone =
      (defaultRow "p").phone :=
  ⟨(c10_theorem (defaultRow "p")
      [("name", some (Val.s "A")), ("bogus", some (Val.i 1)), ("age", none)]).2.2.2.2.2.2.1
      (by decide),
   (c10_theorem (defaultRow "p")
      [("name", some (Val.s "A")), ("bogus", some (Val.i 1)), ("age", none)]).1⟩


/-- C6: a help request always returns the static capability summary,
persists it as the assistant turn right after the inbound user turn, and
never calls the completion interface. -/
theorem c6_theorem (env : Env) (st : St) (msg : String)
    (h : detect_help_request msg = true) :
    (get_ai_response env st msg).2 = helpText ∧
    (get_ai_response env st msg).1.msgs =
      st.msgs ++ [⟨"user", msg⟩, ⟨"assistant", helpText⟩] ∧
    (get_ai_response env st msg).1.completionCalls = st.completionCalls := by
  unfold get_ai_response
  simp [h, saveMsg]

/-- C6 witness. -/
theorem c6_witness :
    (get_ai_response {} {} "help").2 = helpText ∧
    (get_ai_response {} {} "help").1.msgs =
      ({} : St).msgs ++ [⟨"user", "help"⟩, ⟨"assistant", helpText⟩] ∧
    (get_ai_response {} {} "help").1.completionCalls = ({} : St).completionCalls :=
  c6_theorem {} {} "help" (by decide)

/-- C5: on the general chat / food-log / meal-suggestion path, a failed
completion call yields the fixed apologetic fallback and leaves the
transcript with only the inbound user turn appended — no assistant turn
is persisted. -/
theorem c5_theorem (env : Env) (st : St) (msg : String)
    (h1 : detect_help_request msg = false)
    (h2 : (detect_water_log msg && !detect_food_log msg) = false)
    (h3 : detect_summary_request msg = false)
    (h4 : env.completion = none) :
    (get_ai_response env st msg).2 = fallbackReply ∧
    (get_ai_response env st msg).1.msgs = st.msgs ++ [⟨"user", msg⟩] := by
  unfold get_ai_response
  simp only [h1, h2, h3, h4, Bool.false_eq_true, if_false, saveMsg]
  split <;> simp

/-- C5 witness. -/
theorem c5_witness :
    (get_ai_response {} {} "hello there friend").2 = fallbackReply ∧
    (get_ai_response {} {} "hello there friend").1.msgs =
      ({} : St).msgs ++ [⟨"user", "hello there friend"⟩] :=
  c5_theorem {} {} "hello there friend" (by decide) (by decide) (by decide) rfl

theorem findClose_len (cs : List Char) :
    ∀ i rem, findClose cs = some (i, rem) →
      i.length + 2 + rem.length = cs.length := by
  induction cs with
  | nil => intro i rem h; simp [findClose] at h
  | cons c rest ih =>
    intro i rem h
    simp only [findClose] at h
    split at h
    · rename_i hc
      obtain ⟨hc1, hh⟩ := hc
      cases rest with
      | nil => simp at hh
      | cons c2 t =>
        injection h with h
        injection h with h1 h2
        subst h1 h2
        simp
        omega
    · split at h
      · cases h
      · split at h
        next i' rem' hfc =>
          injection h with h
          injection h with h1 h2
          subst h1 h2
          have := ih i' rem' hfc
          simp
          omega
        next hfc => cases h

theorem findClose_span (a b : List Char) (h1 : '*' ∉ a) (h2 : '\n' ∉ a) :
    findClose (a ++ '*' :: '*' :: b) = some (a, b) := by
  induction a with
  | nil => simp [findClose]
  | cons c t ih =>
    have hc : c ≠ '*' := fun h => h1 (h ▸ List.mem_cons_self c t)
    have hn : c ≠ '\n' := fun h => h2 (h ▸ List.mem_cons_self c t)
    rw [List.cons_append]
    simp only [findClose]
    rw [if_neg (fun hx => hc hx.1), if_neg hn,
      ih (fun hm => h1 (List.mem_cons_of_mem c hm))
        (fun hm => h2 (List.mem_cons_of_mem c hm))]

theorem stripBoldF_fuel : ∀ (f g : Nat) (cs : List Char),
    cs.length ≤ f → cs.length ≤ g → stripBoldF f cs = stripBoldF g cs := by
  intro f
  induction f with
  | zero =>
    intro g cs hf hg
    have hnil : cs = [] := List.eq_nil_of_length_eq_zero (Nat.le_zero.mp hf)
    subst hnil
    cases g <;> rfl
  | succ f ih =>
    intro g cs hf hg
    cases cs with
    | nil => cases g <;> rfl
    | cons c rest =>
      cases g with
      | zero => simp at hg
      | succ g' =>
        simp only [stripBoldF]
        by_cases hcond : (c = '*' ∧ rest.head? = some '*')
        · rw [if_pos hcond, if_pos hcond]
          cases hfc : findClose rest.tail with
          | some pr =>
            obtain ⟨i, rem⟩ := pr
            have hlen := findClose_len rest.tail i rem hfc
            have htl : rest.tail.length ≤ rest.length := by
              cases rest <;> simp
            simp only [hfc]
            congr 1
            exact ih g' rem (by simp at hf; omega) (by simp at hg; omega)
          | none =>
            simp only [hfc]
            congr 1
            exact ih g' rest (by simp at hf; omega) (by simp at hg; omega)
        · rw [if_neg hcond, if_neg hcond]
          congr 1
          exact ih g' rest (by simp at hf; omega) (by simp at hg; omega)

theorem stripBold_span (a b : List Char) (h1 : '*' ∉ a) (h2 : '\n' ∉ a) :
    stripBold ('*' :: '*' :: (a ++ '*' :: '*' :: b)) = a ++ stripBold b := by
  unfold stripBold
  rw [show ('*' :: '*' :: (a ++ '*' :: '*' :: b)).length =
      (a ++ '*' :: '*' :: b).length + 1 + 1 by simp]
  simp only [stripBoldF]
  rw [if_pos ⟨trivial, rfl⟩]
  try simp only [List.tail_cons]
  simp only [findClose_span a b h1 h2]
  congr 1
  refine stripBoldF_fuel _ _ b ?_ le_rfl
  simp only [List.length_append, List.length_cons]
  omega

theorem stripBoldF_no_star (cs : List Char) : ∀ f, '*' ∉ cs →
    stripBoldF f cs = cs := by
  induction cs with
  | nil => intro f h; cases f <;> rfl
  | cons c rest ih =>
    intro f h
    cases f with
    | zero => rfl
    | succ f =>
      have hc : c ≠ '*' := fun he => h (he ▸ List.mem_cons_self c rest)
      simp only [stripBoldF]
      rw [if_neg (fun hx => hc hx.1), ih f (fun hm => h (List.mem_cons_of_mem c hm))]

theorem stripBold_no_star (cs : List Char) (h : '*' ∉ cs) : stripBold cs = cs :=
  stripBoldF_no_star cs cs.length h

theorem skipWS_id (s : List Char) (b : Bool)
    (h : ∀ c, s.head? = some c → isWS c = false) : skipWS s b = (s, b) := by
  cases s with
  | nil => rfl
  | cons c t =>
    simp only [skipWS]
    rw [if_neg]
    simp [h c rfl]

theorem stripHeadersF_no_hash (cs : List Char) : ∀ f b, '#' ∉ cs →
    stripHeadersF f cs b = cs := by
  induction cs with
  | nil => intro f b h; cases f <;> rfl
  | cons c rest ih =>
    intro f b h
    cases f with
    | zero => rfl
    | succ f =>
      have hc : c ≠ '#' := fun he => h (he ▸ List.mem_cons_self c rest)
      simp only [stripHeadersF]
      rw [if_neg (by simp [hc]), ih f _ (fun hm => h (List.mem_cons_of_mem c hm))]

theorem stripHeaders_line (s : List Char) (h1 : '#' ∉ s)
    (h2 : ∀ c, s.head? = some c → isWS c = false) :
    stripHeaders ('#' :: ' ' :: s) = s := by
  unfold stripHeaders
  rw [show ('#' :: ' ' :: s).length = s.length + 1 + 1 by simp]
  simp only [stripHeadersF]
  rw [if_pos (by rfl)]
  have hch : countHash ('#' :: ' ' :: s) = 1 := by simp [countHash]
  rw [hch]
  simp only [List.drop_succ_cons, List.drop_zero]
  rw [if_pos (by rfl)]
  have hsk : skipWS (' ' :: s) false = (s, false) := by
    simp only [skipWS]
    rw [if_pos (by rfl)]
    simpa using skipWS_id s _ h2
  rw [hsk]
  exact stripHeadersF_no_hash s _ _ h1

theorem capEmojiF_fuel : ∀ (f g : Nat) (cs : List Char),
    cs.length ≤ f → cs.length ≤ g → capEmojiF f cs = capEmojiF g cs := by
  intro f
  induction f with
  | zero =>
    intro g cs hf hg
    have hnil : cs = [] := List.eq_nil_of_length_eq_zero (Nat.le_zero.mp hf)
    subst hnil
    cases g <;> rfl
  | succ f ih =>
    intro g cs hf hg
    cases cs with
    | nil => cases g <;> rfl
    | cons c rest =>
      cases g with
      | zero => simp at hg
      | succ g' =>
        simp only [capEmojiF]
        by_cases hp : isPicto c = true
        · rw [if_pos hp, if_pos hp]
          congr 1
          have hd : (rest.dropWhile isPicto).length ≤ rest.length :=
            (List.dropWhile_sublist _).length_le
          exact ih g' _ (by simp at hf; omega) (by simp at hg; omega)
        · rw [if_neg hp, if_neg hp]
          congr 1
          exact ih g' rest (by simp at hf; omega) (by simp at hg; omega)

theorem capEmojiF_no_picto (cs : List Char) : ∀ f,
    (∀ c ∈ cs, isPicto c = false) → capEmojiF f cs = cs := by
  induction cs with
  | nil => intro f h; cases f <;> rfl
  | cons c rest ih =>
    intro f h
    cases f with
    | zero => rfl
    | succ f =>
      simp only [capEmojiF]
      rw [if_neg (by simp [h c (List.mem_cons_self c rest)]),
        ih f (fun x hm => h x (List.mem_cons_of_mem c hm))]

theorem capEmoji_no_picto (cs : List Char)
    (h : ∀ c ∈ cs, isPicto c = false) : capEmoji cs = cs :=
  capEmojiF_no_picto cs cs.length h

theorem whileSplit (p : Char → Bool) (xs ys : List Char)
    (hx : ∀ c ∈ xs, p c = true) (hy : ∀ c, ys.head? = some c → p c = false) :
    (xs ++ ys).takeWhile p = xs ∧ (xs ++ ys).dropWhile p = ys := by
  induction xs with
  | nil =>
    constructor
    · cases ys with
      | nil => rfl
      | cons c t => simp [List.takeWhile, hy c rfl]
    · cases ys with
      | nil => rfl
      | cons c t => simp [List.dropWhile, hy c rfl]
  | cons x t ih =>
    have hpx : p x = true := hx x (List.mem_cons_self x t)
    have ih' := ih (fun c hm => hx c (List.mem_cons_of_mem x hm))
    constructor
    · simp [List.takeWhile, hpx, ih'.1]
    · simp [List.dropWhile, hpx, ih'.2]

theorem capEmoji_run (run rest : List Char) (hne : run ≠ [])
    (hall : ∀ c ∈ run, isPicto c = true)
    (hrest : ∀ c, rest.head? = some c → isPicto c = false) :
    capEmoji (run ++ rest) =
      (if 4 ≤ run.length then run.take 3 else run) ++ capEmoji rest := by
  obtain ⟨c, run', rfl⟩ : ∃ c t, run = c :: t := by
    cases run with
    | nil => exact absurd rfl hne
    | cons c t => exact ⟨c, t, rfl⟩
  unfold capEmoji
  rw [show ((c :: run') ++ rest).length = (run' ++ rest).length + 1 by simp]
  simp only [capEmojiF]
  rw [if_pos (hall c (List.mem_cons_self c run'))]
  have hsplit := whileSplit isPicto run' rest
    (fun x hm => hall x (List.mem_cons_of_mem c hm)) hrest
  simp only [List.append_eq] at hsplit ⊢
  rw [hsplit.1, hsplit.2]
  congr 1
  refine capEmojiF_fuel _ _ rest ?_ le_rfl
  simp only [List.length_append]
  omega

theorem rfindAux_spec (needle : List Char) :
    ∀ (hay : List Char) (i : Nat) (best : Option Nat) (j : Nat),
      rfindAux needle hay i best = some j →
      best = some j ∨ (i ≤ j ∧ needle.isPrefixOf (hay.drop (j - i)) = true) := by
  intro hay
  induction hay with
  | nil =>
    intro i best j h
    simp only [rfindAux] at h
    by_cases hp : needle.isPrefixOf ([] : List Char) = true
    · rw [if_pos hp] at h
      cases h
      right
      exact ⟨le_rfl, by simpa using hp⟩
    · rw [if_neg hp] at h
      left; exact h
  | cons c t ih =>
    intro i best j h
    simp only [rfindAux] at h
    rcases ih (i + 1) _ j h with hb | ⟨hij, hpre⟩
    · by_cases hp : needle.isPrefixOf (c :: t) = true
      · rw [if_pos hp] at hb
        cases hb
        right
        exact ⟨le_rfl, by simpa using hp⟩
      · rw [if_neg hp] at hb
        left; exact hb
    · right
      refine ⟨by omega, ?_⟩
      rw [show j - i = (j - (i + 1)) + 1 by omega]
      simpa using hpre

theorem rfindSub_prefix (hay needle : List Char) (j : Nat)
    (h : rfindSub hay needle = some j) :
    needle.isPrefixOf (hay.drop j) = true := by
  rcases rfindAux_spec needle hay 0 none j h with hb | ⟨_, hp⟩
  · cases hb
  · simpa using hp

theorem rfindSub_bound (hay needle : List Char) (j : Nat)
    (h : rfindSub hay needle = some j) (hne : needle ≠ []) :
    j + needle.length ≤ hay.length := by
  have hp := rfindSub_prefix hay needle j h
  have hlen : needle.length ≤ (hay.drop j).length :=
    (List.isPrefixOf_iff_prefix.mp hp).length_le
  have hd : (hay.drop j).length = hay.length - j := List.length_drop j hay
  have hpos : 0 < needle.length := List.length_pos.mpr hne
  omega

theorem rfindAux_skip (d : Char) (tl : List Char) :
    ∀ (hay : List Char) (i : Nat) (best : Option Nat), d ∉ hay →
      rfindAux (d :: tl) hay i best = best := by
  intro hay
  induction hay with
  | nil =>
    intro i best h
    simp [rfindAux, List.isPrefixOf]
  | cons c t ih =>
    intro i best h
    have hc : c ≠ d := fun he => h (he ▸ List.mem_cons_self c t)
    simp only [rfindAux]
    rw [ih _ _ (fun hm => h (List.mem_cons_of_mem c hm))]
    simp [List.isPrefixOf]
    intro he
    exact absurd he.symm hc

theorem rfindSub_none (hay : List Char) (d : Char) (tl : List Char)
    (h : d ∉ hay) : rfindSub hay (d :: tl) = none :=
  rfindAux_skip d tl hay 0 none h

theorem truncate_of_le (t : List Char) (h : t.length ≤ 4000) :
    truncate4000 t = t := by
  unfold truncate4000
  rw [if_neg (by omega)]

theorem sentenceCut_len (t : List Char) :
    (sentenceCut t (t.take 4000)).length ≤ 4000 := by
  have h40 := List.length_take 4000 t
  unfold sentenceCut
  cases hg : rfindSub (t.take 4000) ['.', ' '] with
  | some cut2 =>
    have hb := rfindSub_bound _ _ _ hg (by simp)
    simp only [List.length_cons, List.length_nil] at hb
    have hc2 := List.length_take (cut2 + 1) t
    show (if 0 < cut2 then List.take (cut2 + 1) t else List.take 4000 t).length ≤ 4000
    by_cases hpos : 0 < cut2
    · rw [if_pos hpos]; omega
    · rw [if_neg hpos]; omega
  | none =>
    show (List.take 4000 t).length ≤ 4000
    omega

theorem truncate_len (t : List Char) : (truncate4000 t).length ≤ 4000 := by
  have h40 := List.length_take 4000 t
  unfold truncate4000
  split
  · rename_i hgt
    cases hf : rfindSub (t.take 4000) ['\n', '\n'] with
    | some cut =>
      have hb := rfindSub_bound _ _ _ hf (by simp)
      simp only [List.length_cons, List.length_nil] at hb
      have hc2 := List.length_take cut t
      show (if 2000 < cut then List.take cut t else
        sentenceCut t (List.take 4000 t)).length ≤ 4000
      by_cases hpos : 2000 < cut
      · rw [if_pos hpos]; omega
      · rw [if_neg hpos]; exact sentenceCut_len t
    | none =>
      show (sentenceCut t (List.take 4000 t)).length ≤ 4000
      exact sentenceCut_len t
  · rename_i hle
    omega

theorem truncate_para (t : List Char) (cut : Nat) (h4 : 4000 < t.length)
    (hf : rfindSub (t.take 4000) ['\n', '\n'] = some cut) (hc : 2000 < cut) :
    truncate4000 t = t.take cut ∧
    (['\n', '\n'] : List Char).isPrefixOf (t.drop cut) = true := by
  constructor
  · unfold truncate4000
    rw [if_pos h4, hf]
    exact if_pos hc
  · have hp := rfindSub_prefix _ _ _ hf
    rw [List.isPrefixOf_iff_prefix] at hp ⊢
    have hdt : (t.take 4000).drop cut = (t.drop cut).take (4000 - cut) := by
      rw [List.drop_take]
    rw [hdt] at hp
    exact hp.trans (List.take_prefix _ _)

theorem dropWhile_id_of_all (p : Char → Bool) (cs : List Char)
    (h : ∀ c ∈ cs, p c = false) : cs.dropWhile p = cs := by
  cases cs with
  | nil => rfl
  | cons c t => simp [List.dropWhile, h c (List.mem_cons_self c t)]

theorem pyStrip_id (cs : List Char) (h : ∀ c ∈ cs, isWS c = false) :
    pyStrip cs = cs := by
  unfold pyStrip
  rw [dropWhile_id_of_all _ _ h,
    dropWhile_id_of_all _ _ (fun c hm => h c (List.mem_reverse.mp hm)),
    List.reverse_reverse]

theorem pyStrip_len (cs : List Char) : (pyStrip cs).length ≤ cs.length := by
  unfold pyStrip
  rw [List.length_reverse]
  refine le_trans (List.dropWhile_sublist _).length_le ?_
  rw [List.length_reverse]
  exact (List.dropWhile_sublist _).length_le

theorem clean_response_len (t : List Char) : (clean_response t).length ≤ 4000 :=
  le_trans (pyStrip_len _) (truncate_len _)

theorem stripHeaders_no_hash (cs : List Char) (h : '#' ∉ cs) :
    stripHeaders cs = cs :=
  stripHeadersF_no_hash cs cs.length true h

theorem noStarStar_cons (c : Char) (l : List Char) (h : noStarStar (c :: l) = true) :
    noStarStar l = true ∧ ∀ c', l.head? = some c' → ¬(c = '*' ∧ c' = '*') := by
  cases l with
  | nil => exact ⟨rfl, fun c' hc' => by cases hc'⟩
  | cons c' t =>
    simp only [noStarStar] at h
    by_cases hcc : (c = '*' ∧ c' = '*')
    · rw [if_pos hcc] at h; cases h
    · rw [if_neg hcc] at h
      exact ⟨h, fun c'' hc'' => by injection hc'' with he; subst he; exact hcc⟩

theorem findClose_span2 (a b : List Char) (h1 : noStarStar (a ++ ['*']) = true)
    (h2 : '\n' ∉ a) : findClose (a ++ '*' :: '*' :: b) = some (a, b) := by
  induction a with
  | nil => simp [findClose]
  | cons c t ih =>
    have hn : c ≠ '\n' := fun h => h2 (h ▸ List.mem_cons_self c t)
    obtain ⟨ht, hhd⟩ := noStarStar_cons c (t ++ ['*'])
      (by rw [List.cons_append] at h1; exact h1)
    have hcond : ¬(c = '*' ∧ (t ++ '*' :: '*' :: b).head? = some '*') := by
      rintro ⟨hcs, hh⟩
      cases t with
      | nil => exact hhd '*' rfl ⟨hcs, rfl⟩
      | cons c0 t' =>
        simp only [List.cons_append, List.head?_cons] at hh
        injection hh with he
        exact hhd c0 rfl ⟨hcs, he⟩
    rw [List.cons_append]
    simp only [findClose]
    rw [if_neg hcond, if_neg hn,
      ih ht (fun hm => h2 (List.mem_cons_of_mem c hm))]

theorem stripBoldF_append (p : List Char) (hp : noStarStar (p ++ ['*']) = true) :
    ∀ (f : Nat) (rest : List Char), rest.head? = some '*' →
      p.length + rest.length ≤ f →
      stripBoldF f (p ++ rest) = p ++ stripBoldF rest.length rest := by
  induction p with
  | nil =>
    intro f rest hr hf
    simpa using stripBoldF_fuel f rest.length rest (by simpa using hf) le_rfl
  | cons c t ih =>
    intro f rest hr hf
    obtain ⟨ht, hhd⟩ := noStarStar_cons c (t ++ ['*'])
      (by rw [List.cons_append] at hp; exact hp)
    cases f with
    | zero => simp at hf
    | succ f' =>
      rw [List.cons_append]
      simp only [stripBoldF]
      have hcond : ¬(c = '*' ∧ (t ++ rest).head? = some '*') := by
        rintro ⟨hcs, hh⟩
        cases t with
        | nil => exact hhd '*' rfl ⟨hcs, rfl⟩
        | cons c0 t' =>
          simp only [List.cons_append, List.head?_cons] at hh
          injection hh with he
          exact hhd c0 rfl ⟨hcs, he⟩
      rw [if_neg hcond]
      rw [ih ht f' rest hr (by simp at hf ⊢; omega), List.cons_append]

theorem stripBold_span2 (p a b : List Char) (hp : noStarStar (p ++ ['*']) = true)
    (ha : noStarStar (a ++ ['*']) = true) (hn : '\n' ∉ a) :
    stripBold (p ++ '*' :: '*' :: (a ++ '*' :: '*' :: b)) = p ++ a ++ stripBold b := by
  unfold stripBold
  rw [stripBoldF_append p hp (p ++ '*' :: '*' :: (a ++ '*' :: '*' :: b)).length
    ('*' :: '*' :: (a ++ '*' :: '*' :: b)) rfl (by simp)]
  have hmid : stripBoldF ('*' :: '*' :: (a ++ '*' :: '*' :: b)).length
      ('*' :: '*' :: (a ++ '*' :: '*' :: b)) = a ++ stripBold b := by
    rw [show ('*' :: '*' :: (a ++ '*' :: '*' :: b)).length =
        (a ++ '*' :: '*' :: b).length + 1 + 1 by simp]
    simp only [stripBoldF]
    rw [if_pos ⟨trivial, rfl⟩]
    try simp only [List.tail_cons]
    simp only [findClose_span2 a b ha hn]
    congr 1
    refine stripBoldF_fuel _ _ b ?_ le_rfl
    simp only [List.length_append, List.length_cons]
    omega
  rw [hmid, List.append_assoc]
  rfl

theorem capEmojiF_append (p : List Char) (hp : ∀ c ∈ p, isPicto c = false) :
    ∀ (f : Nat) (rest : List Char), p.length + rest.length ≤ f →
      capEmojiF f (p ++ rest) = p ++ capEmojiF rest.length rest := by
  induction p with
  | nil =>
    intro f rest hf
    simpa using capEmojiF_fuel f rest.length rest (by simpa using hf) le_rfl
  | cons c t ih =>
    intro f rest hf
    cases f with
    | zero => simp at hf
    | succ f' =>
      rw [List.cons_append]
      simp only [capEmojiF]
      rw [if_neg (by simp [hp c (List.mem_cons_self c t)])]
      rw [ih (fun x hx => hp x (List.mem_cons_of_mem c hx)) f' rest
        (by simp at hf ⊢; omega), List.cons_append]

theorem capEmoji_run2 (p run rest : List Char)
    (hp : ∀ c ∈ p, isPicto c = false) (hne : run ≠ [])
    (hall : ∀ c ∈ run, isPicto c = true)
    (hrest : ∀ c, rest.head? = some c → isPicto c = false) :
    capEmoji (p ++ run ++ rest) =
      p ++ (if 4 ≤ run.length then run.take 3 else run) ++ capEmoji rest := by
  unfold capEmoji
  rw [List.append_assoc, capEmojiF_append p hp _ _ (by simp)]
  have hr := capEmoji_run run rest hne hall hrest
  unfold capEmoji at hr
  rw [hr, List.append_assoc]

theorem skipWS_len (s : List Char) : ∀ b, (skipWS s b).1.length ≤ s.length := by
  induction s with
  | nil => intro b; simp [skipWS]
  | cons c t ih =>
    intro b
    simp only [skipWS]
    by_cases h : isWS c = true
    · rw [if_pos h]
      exact le_trans (ih _) (by simp)
    · rw [if_neg h]

theorem stripHeadersF_fuel : ∀ (f g : Nat) (cs : List Char) (b : Bool),
    cs.length ≤ f → cs.length ≤ g → stripHeadersF f cs b = stripHeadersF g cs b := by
  intro f
  induction f with
  | zero =>
    intro g cs b hf hg
    have hnil : cs = [] := List.eq_nil_of_length_eq_zero (Nat.le_zero.mp hf)
    subst hnil
    cases g <;> rfl
  | succ f ih =>
    intro g cs b hf hg
    cases cs with
    | nil => cases g <;> rfl
    | cons c rest =>
      cases g with
      | zero => simp at hg
      | succ g' =>
        simp only [stripHeadersF]
        split
        next h1 =>
          split
          next h2 =>
            have hc : c = '#' := by
              have h1' := (Bool.and_eq_true _ _).mp h1
              simpa using h1'.2
            have hn1 : 1 ≤ countHash (c :: rest) := by
              subst hc
              simp [countHash]
            have hdl : (List.drop (countHash (c :: rest)) (c :: rest)).length ≤
                rest.length := by
              rw [List.length_drop]
              simp only [List.length_cons]
              omega
            have hsl := skipWS_len (List.drop (countHash (c :: rest)) (c :: rest)) false
            apply ih
            · simp only [List.length_cons] at hf
              omega
            · simp only [List.length_cons] at hg
              omega
          next h2 =>
            rw [ih g' rest (decide (c = '\n'))
              (by simp only [List.length_cons] at hf; omega)
              (by simp only [List.length_cons] at hg; omega)]
        next h1 =>
          rw [ih g' rest (decide (c = '\n'))
            (by simp only [List.length_cons] at hf; omega)
            (by simp only [List.length_cons] at hg; omega)]

theorem stripHeadersF_append (p : List Char) (hp : '#' ∉ p) :
    ∀ (f : Nat) (b : Bool) (rest : List Char), p.length + rest.length ≤ f →
      stripHeadersF f (p ++ rest) b = p ++ stripHeadersF rest.length rest (flagOf p b) := by
  induction p with
  | nil =>
    intro f b rest hf
    simpa using stripHeadersF_fuel f rest.length rest b (by simpa using hf) le_rfl
  | cons c t ih =>
    intro f b rest hf
    have hc : c ≠ '#' := fun he => hp (he ▸ List.mem_cons_self c t)
    cases f with
    | zero => simp at hf
    | succ f' =>
      rw [List.cons_append]
      simp only [stripHeadersF]
      rw [if_neg (by simp [hc])]
      rw [ih (fun hm => hp (List.mem_cons_of_mem c hm)) f' _ rest
        (by simp at hf ⊢; omega), List.cons_append]
      rfl

theorem flagOf_append_single (p : List Char) : ∀ (b : Bool) (c : Char),
    flagOf (p ++ [c]) b = decide (c = '\n') := by
  induction p with
  | nil => intro b c; rfl
  | cons x t ih => intro b c; exact ih _ c

theorem skipWS_run (ws : List Char) : ∀ (s : List Char) (b : Bool),
    (∀ x ∈ ws, isWS x = true) → (∀ c, s.head? = some c → isWS c = false) →
    skipWS (ws ++ s) b = (s, flagOf ws b) := by
  induction ws with
  | nil => intro s b _ hs; simpa using skipWS_id s b hs
  | cons x t ih =>
    intro s b hws hs
    rw [List.cons_append]
    simp only [skipWS]
    rw [if_pos (hws x (List.mem_cons_self x t))]
    exact ih s _ (fun y hy => hws y (List.mem_cons_of_mem x hy)) hs

theorem countHash_replicate (k : Nat) (c : Char) (hc : c ≠ '#') (l : List Char) :
    countHash (List.replicate k '#' ++ c :: l) = k := by
  induction k with
  | zero =>
    simp only [List.replicate, List.nil_append]
    rw [countHash.eq_def]
    split
    next heq =>
      injection heq with h1 _
      exact absurd h1 hc
    next => rfl
  | succ n ih =>
    rw [List.replicate_succ, List.cons_append,
      show ∀ l', countHash ('#' :: l') = countHash l' + 1 from fun _ => rfl, ih]

theorem stripHeadersF_flag (f : Nat) (s : List Char) (b b' : Bool)
    (h : ∀ c, s.head? = some c → c ≠ '#') :
    stripHeadersF f s b = stripHeadersF f s b' := by
  cases f with
  | zero => rfl
  | succ f' =>
    cases s with
    | nil => rfl
    | cons c t =>
      have hc : c ≠ '#' := h c rfl
      simp only [stripHeadersF]
      rw [if_neg (by simp [hc]), if_neg (by simp [hc])]

theorem stripHeaders_head (k : Nat) (w s : List Char) (c : Char)
    (hk1 : 1 ≤ k) (hk3 : k ≤ 3) (hc : isWS c = true)
    (hw : ∀ x ∈ w, isWS x = true)
    (hs : ∀ c', s.head? = some c' → isWS c' = false ∧ c' ≠ '#') :
    stripHeaders (List.replicate k '#' ++ (c :: w) ++ s) = stripHeaders s := by
  obtain ⟨k', rfl⟩ : ∃ k', k = k' + 1 := ⟨k - 1, by omega⟩
  have hch : c ≠ '#' := by
    intro he
    subst he
    exact absurd hc (by decide)
  have hshape : List.replicate (k' + 1) '#' ++ (c :: w) ++ s =
      '#' :: (List.replicate k' '#' ++ c :: (w ++ s)) := by
    simp [List.replicate_succ]
  rw [hshape]
  unfold stripHeaders
  simp only [List.length_cons]
  simp only [stripHeadersF]
  rw [if_pos (by rfl)]
  have hcount : countHash ('#' :: (List.replicate k' '#' ++ c :: (w ++ s))) =
      k' + 1 := by
    have h := countHash_replicate (k' + 1) c hch (w ++ s)
    rw [List.replicate_succ, List.cons_append] at h
    exact h
  rw [hcount]
  have hdrop : List.drop (k' + 1) ('#' :: (List.replicate k' '#' ++ c :: (w ++ s))) =
      c :: (w ++ s) := by
    rw [show ('#' :: (List.replicate k' '#' ++ c :: (w ++ s))) =
        List.replicate (k' + 1) '#' ++ (c :: (w ++ s)) by
      rw [List.replicate_succ, List.cons_append]]
    exact List.drop_left' (by simp)
  rw [hdrop]
  rw [if_pos (by simp [hk3, hc])]
  rw [← List.cons_append]
  rw [skipWS_run (c :: w) s false
    (by
      intro x hx
      rcases List.mem_cons.mp hx with h | h
      · subst h; exact hc
      · exact hw x h)
    (fun c' h' => (hs c' h').1)]
  rw [stripHeadersF_flag _ s _ true (fun c' h' => (hs c' h').2)]
  exact stripHeadersF_fuel _ _ s true (by simp; omega) le_rfl

theorem stripHeaders_mid (p : List Char) (k : Nat) (w s : List Char) (c : Char)
    (hp : '#' ∉ p) (hk1 : 1 ≤ k) (hk3 : k ≤ 3) (hc : isWS c = true)
    (hw : ∀ x ∈ w, isWS x = true)
    (hs : ∀ c', s.head? = some c' → isWS c' = false ∧ c' ≠ '#') :
    stripHeaders (p ++ '\n' :: (List.replicate k '#' ++ (c :: w) ++ s)) =
      p ++ '\n' :: stripHeaders s := by
  have hp' : '#' ∉ p ++ ['\n'] := by
    intro hm
    rcases List.mem_append.mp hm with h | h
    · exact hp h
    · simp at h
  have hshape : p ++ '\n' :: (List.replicate k '#' ++ (c :: w) ++ s) =
      (p ++ ['\n']) ++ (List.replicate k '#' ++ (c :: w) ++ s) := by
    simp
  rw [hshape]
  unfold stripHeaders
  rw [stripHeadersF_append (p ++ ['\n']) hp' _ true _ (by simp; omega)]
  rw [flagOf_append_single]
  rw [show (decide ('\n' = '\n')) = true from rfl]
  have hh := stripHeaders_head k w s c hk1 hk3 hc hw hs
  unfold stripHeaders at hh
  rw [hh]
  simp

theorem truncate_sentence (t : List Char) (cut : Nat) (h4 : 4000 < t.length)
    (hpar : ∀ q, rfindSub (t.take 4000) ['\n', '\n'] = some q → q ≤ 2000)
    (hf : rfindSub (t.take 4000) ['.', ' '] = some cut) (hc : 0 < cut) :
    truncate4000 t = t.take (cut + 1) ∧
    (['.', ' '] : List Char).isPrefixOf (t.drop cut) = true := by
  constructor
  · have hsc : sentenceCut t (t.take 4000) = t.take (cut + 1) := by
      unfold sentenceCut
      rw [hf]
      exact if_pos hc
    unfold truncate4000
    rw [if_pos h4]
    cases hq : rfindSub (t.take 4000) ['\n', '\n'] with
    | none =>
      show sentenceCut t (t.take 4000) = t.take (cut + 1)
      exact hsc
    | some q =>
      have hle := hpar q hq
      show (if 2000 < q then t.take q else sentenceCut t (t.take 4000)) = t.take (cut + 1)
      rw [if_neg (by omega)]
      exact hsc
  · have hp := rfindSub_prefix _ _ _ hf
    rw [List.isPrefixOf_iff_prefix] at hp ⊢
    have hdt : (t.take 4000).drop cut = (t.drop cut).take (4000 - cut) := by
      rw [List.drop_take]
    rw [hdt] at hp
    exact hp.trans (List.take_prefix _ _)

/-- C4 (amended): the post-processing pipeline strips any well-formed
newline-free emphasis span (single stars allowed inside) wherever it
occurs after a double-star-free prefix, strips a 1-3 `#` heading marker
together with its trailing whitespace run at the start of the text and at
the start of any later line, caps any pictographic run of length at least
4 to its first 3 characters, never returns more than 4000 characters,
leaves texts within the limit untouched by the length stage, and cuts
longer texts at the last paragraph break past position 2000 when one
exists, else at the last `". "` sentence boundary, and otherwise
hard-cuts at exactly 4000 characters, possibly mid-word. -/
theorem c4_theorem :
    (∀ p a b : List Char, noStarStar (p ++ ['*']) = true →
      noStarStar (a ++ ['*']) = true → '\n' ∉ a →
      stripBold (p ++ '*' :: '*' :: (a ++ '*' :: '*' :: b)) = p ++ a ++ stripBold b) ∧
    (∀ (k : Nat) (w s : List Char) (c : Char), 1 ≤ k → k ≤ 3 → isWS c = true →
      (∀ x ∈ w, isWS x = true) →
      (∀ c', s.head? = some c' → isWS c' = false ∧ c' ≠ '#') →
      stripHeaders (List.replicate k '#' ++ (c :: w) ++ s) = stripHeaders s) ∧
    (∀ (p : List Char) (k : Nat) (w s : List Char) (c : Char), '#' ∉ p →
      1 ≤ k → k ≤ 3 → isWS c = true → (∀ x ∈ w, isWS x = true) →
      (∀ c', s.head? = some c' → isWS c' = false ∧ c' ≠ '#') →
      stripHeaders (p ++ '\n' :: (List.replicate k '#' ++ (c :: w) ++ s)) =
        p ++ '\n' :: stripHeaders s) ∧
    (∀ p run rest : List Char, (∀ c ∈ p, isPicto c = false) → run ≠ [] →
      (∀ c ∈ run, isPicto c = true) → (∀ c, rest.head? = some c → isPicto c = false) →
      capEmoji (p ++ run ++ rest) =
        p ++ (if 4 ≤ run.length then run.take 3 else run) ++ capEmoji rest) ∧
    (∀ t : List Char, (clean_response t).length ≤ 4000) ∧
    (∀ t : List Char, t.length ≤ 4000 → truncate4000 t = t) ∧
    (∀ (t : List Char) (cut : Nat), 4000 < t.length →
      rfindSub (t.take 4000) ['\n', '\n'] = some cut → 2000 < cut →
      truncate4000 t = t.take cut ∧
      (['\n', '\n'] : List Char).isPrefixOf (t.drop cut) = true) ∧
    (∀ (t : List Char) (cut : Nat), 4000 < t.length →
      (∀ q, rfindSub (t.take 4000) ['\n', '\n'] = some q → q ≤ 2000) →
      rfindSub (t.take 4000) ['.', ' '] = some cut → 0 < cut →
      truncate4000 t = t.take (cut + 1) ∧
      (['.', ' '] : List Char).isPrefixOf (t.drop cut) = true) ∧
    (∀ t : List Char, clean_response t =
      pyStrip (truncate4000 (capEmoji (stripHeaders (stripBold t))))) :=
  ⟨stripBold_span2, stripHeaders_head, stripHeaders_mid, capEmoji_run2,
   clean_response_len, truncate_of_le, truncate_para, truncate_sentence,
   fun _ => rfl⟩


/-- C4 counterexample: a 4001-character single-word text has no paragraph
or sentence boundary, so post-processing hard-cuts it to exactly 4000
characters in the middle of the word. -/
theorem c4_counterexample :
    clean_response (List.replicate 4001 'a') = List.replicate 4000 'a' ∧
    4000 < (List.replicate 4001 'a').length ∧
    (List.replicate 4000 'a').length = 4000 := by
  refine ⟨?_, by simp only [List.length_replicate]; norm_num,
    by simp only [List.length_replicate]⟩
  have hna : ∀ c : Char, c ≠ 'a' → c ∉ List.replicate 4001 'a' :=
    fun c hc hm => hc (List.eq_of_mem_replicate hm)
  have hna4 : ∀ c : Char, c ≠ 'a' → c ∉ List.replicate 4000 'a' :=
    fun c hc hm => hc (List.eq_of_mem_replicate hm)
  unfold clean_response
  rw [stripBold_no_star _ (hna '*' (by decide)),
    stripHeaders_no_hash _ (hna '#' (by decide)),
    capEmoji_no_picto _ (fun c hm => by
      rw [List.eq_of_mem_replicate hm]; decide)]
  have htk : (List.replicate 4001 'a').take 4000 = List.replicate 4000 'a' := by
    rw [List.take_replicate]
    norm_num
  have hfn : rfindSub ((List.replicate 4001 'a').take 4000) ['\n', '\n'] = none := by
    rw [htk]
    exact rfindSub_none _ '\n' _ (hna4 '\n' (by decide))
  have hfd : rfindSub ((List.replicate 4001 'a').take 4000) ['.', ' '] = none := by
    rw [htk]
    exact rfindSub_none _ '.' _ (hna4 '.' (by decide))
  have hs1 : truncate4000 (List.replicate 4001 'a') =
      sentenceCut (List.replicate 4001 'a') ((List.replicate 4001 'a').take 4000) := by
    have hlt : 4000 < (List.replicate 4001 'a').length := by
      simp only [List.length_replicate]
      norm_num
    unfold truncate4000
    rw [if_pos hlt, hfn]
  have hs2 : sentenceCut (List.replicate 4001 'a') ((List.replicate 4001 'a').take 4000) =
      (List.replicate 4001 'a').take 4000 := by
    unfold sentenceCut
    rw [hfd]
  rw [hs1, hs2, htk]
  exact pyStrip_id _ (fun c hm => by rw [List.eq_of_mem_replicate hm]; decide)

theorem rfindAux_append_skip (d : Char) (tl : List Char) (xs : List Char)
    (hd : d ∉ xs) : ∀ (ys : List Char) (i : Nat) (best : Option Nat),
    rfindAux (d :: tl) (xs ++ ys) i best =
      rfindAux (d :: tl) ys (i + xs.length) best := by
  induction xs with
  | nil => intro ys i best; simp
  | cons c t ih =>
    intro ys i best
    have hc : c ≠ d := fun he => hd (he ▸ List.mem_cons_self c t)
    rw [List.cons_append]
    simp only [rfindAux]
    rw [show ((d :: tl).isPrefixOf (c :: (t ++ ys))) = false from by
      simp [List.isPrefixOf]
      intro he
      exact absurd he.symm hc]
    rw [if_neg (by simp)]
    rw [ih (fun hm => hd (List.mem_cons_of_mem c hm)) ys (i + 1) best]
    congr 1
    simp
    omega

theorem rfind_nl2_concrete (m : Nat) :
    rfindSub (List.replicate 2500 'a' ++ '\n' :: '\n' :: List.replicate m 'b')
      ['\n', '\n'] = some 2500 := by
  unfold rfindSub
  rw [rfindAux_append_skip '\n' ['\n'] (List.replicate 2500 'a')
    (fun hm => absurd (List.eq_of_mem_replicate hm) (by decide))]
  simp only [List.length_replicate, Nat.zero_add]
  have hp1 : ((['\n', '\n'] : List Char).isPrefixOf
      ('\n' :: '\n' :: List.replicate m 'b')) = true := by
    simp [List.isPrefixOf]
  have hp2 : ((['\n', '\n'] : List Char).isPrefixOf
      ('\n' :: List.replicate m 'b')) = false := by
    cases m with
    | zero => rfl
    | succ k => simp [List.replicate_succ, List.isPrefixOf]
  simp only [rfindAux, hp1, hp2, if_true, if_false]
  exact rfindAux_skip '\n' ['\n'] _ _ _
    (fun hm => absurd (List.eq_of_mem_replicate hm) (by decide))

theorem take_4000_concrete :
    (List.replicate 2500 'a' ++ '\n' :: '\n' :: List.replicate 1600 'b').take 4000 =
      List.replicate 2500 'a' ++ '\n' :: '\n' :: List.replicate 1498 'b' := by
  rw [List.take_append_eq_append_take, List.take_replicate, List.length_replicate]
  norm_num

theorem take_4000_dot :
    (List.replicate 3000 'a' ++ '.' :: ' ' :: List.replicate 1500 'b').take 4000 =
      List.replicate 3000 'a' ++ '.' :: ' ' :: List.replicate 998 'b' := by
  rw [List.take_append_eq_append_take, List.take_replicate, List.length_replicate]
  norm_num

theorem rfind_dot_concrete (m : Nat) :
    rfindSub (List.replicate 3000 'a' ++ '.' :: ' ' :: List.replicate m 'b')
      ['.', ' '] = some 3000 := by
  unfold rfindSub
  rw [rfindAux_append_skip '.' [' '] (List.replicate 3000 'a')
    (fun hm => absurd (List.eq_of_mem_replicate hm) (by decide))]
  simp only [List.length_replicate, Nat.zero_add]
  have hp1 : ((['.', ' '] : List Char).isPrefixOf
      ('.' :: ' ' :: List.replicate m 'b')) = true := by
    simp [List.isPrefixOf]
  have hp2 : ((['.', ' '] : List Char).isPrefixOf
      (' ' :: List.replicate m 'b')) = false := by
    simp [List.isPrefixOf]
  simp only [rfindAux, hp1, hp2, if_true, if_false]
  exact rfindAux_skip '.' [' '] _ _ _
    (fun hm => absurd (List.eq_of_mem_replicate hm) (by decide))

theorem dot_text_no_nl :
    '\n' ∉ List.replicate 3000 'a' ++ '.' :: ' ' :: List.replicate 998 'b' := by
  intro hm
  rcases List.mem_append.mp hm with h | h
  · exact absurd (List.eq_of_mem_replicate h) (by decide)
  · simp only [List.mem_cons] at h
    rcases h with h | h | h
    · exact absurd h (by decide)
    · exact absurd h (by decide)
    · exact absurd (List.eq_of_mem_replicate h) (by decide)

/-- C4 witness: the clauses of `c4_theorem` at concrete texts — a bold
span with a single interior star after a non-empty prefix, a two-hash
heading at the start and a one-hash heading after a first line, a
5-emoji run after plain text, a short text left alone by the length cap,
a long text cut at its paragraph break at position 2500, and a long text
with no paragraph break cut after its sentence boundary at 3000. -/
theorem c4_witness :
    stripBold (['x'] ++ '*' :: '*' :: (['b', '*', 'c'] ++ '*' :: '*' :: ['!'])) =
      ['x'] ++ ['b', '*', 'c'] ++ stripBold ['!'] ∧
    stripHeaders (List.replicate 2 '#' ++ (' ' :: ['\t']) ++ ['T']) =
      stripHeaders ['T'] ∧
    stripHeaders (['a'] ++ '\n' :: (List.replicate 1 '#' ++ (' ' :: []) ++ ['T', 'i'])) =
      ['a'] ++ '\n' :: stripHeaders ['T', 'i'] ∧
    capEmoji (['h', 'i'] ++ List.replicate 5 '🙂' ++ ['x']) =
      ['h', 'i'] ++ (if 4 ≤ (List.replicate 5 '🙂').length then
        (List.replicate 5 '🙂').take 3 else List.replicate 5 '🙂') ++ capEmoji ['x'] ∧
    truncate4000 ['o', 'k'] = ['o', 'k'] ∧
    (truncate4000 (List.replicate 2500 'a' ++ '\n' :: '\n' :: List.replicate 1600 'b') =
      (List.replicate 2500 'a' ++ '\n' :: '\n' :: List.replicate 1600 'b').take 2500 ∧
     (['\n', '\n'] : List Char).isPrefixOf
       ((List.replicate 2500 'a' ++ '\n' :: '\n' :: List.replicate 1600 'b').drop 2500) =
       true) ∧
    (truncate4000 (List.replicate 3000 'a' ++ '.' :: ' ' :: List.replicate 1500 'b') =
      (List.replicate 3000 'a' ++ '.' :: ' ' :: List.replicate 1500 'b').take 3001 ∧
     (['.', ' '] : List Char).isPrefixOf
       ((List.replicate 3000 'a' ++ '.' :: ' ' :: List.replicate 1500 'b').drop 3000) =
       true) :=
  ⟨c4_theorem.1 ['x'] ['b', '*', 'c'] ['!'] (by decide) (by decide) (by decide),
   c4_theorem.2.1 2 ['\t'] ['T'] ' ' (by decide) (by decide) (by decide)
     (by decide)
     (fun c' hc' => by injection hc' with h; subst h; exact ⟨by decide, by decide⟩),
   c4_theorem.2.2.1 ['a'] 1 [] ['T', 'i'] ' ' (by decide) (by decide) (by decide)
     (by decide) (by decide)
     (fun c' hc' => by injection hc' with h; subst h; exact ⟨by decide, by decide⟩),
   c4_theorem.2.2.2.1 ['h', 'i'] (List.replicate 5 '🙂') ['x'] (by decide)
     (by decide) (by decide)
     (fun c hc => by injection hc with h; subst h; decide),
   c4_theorem.2.2.2.2.2.1 ['o', 'k'] (by decide),
   c4_theorem.2.2.2.2.2.2.1 _ 2500
     (by simp only [List.length_append, List.length_cons, List.length_replicate]
         norm_num)
     (by rw [take_4000_concrete]; exact rfind_nl2_concrete 1498)
     (by norm_num),
   c4_theorem.2.2.2.2.2.2.2.1 _ 3000
     (by simp only [List.length_append, List.length_cons, List.length_replicate]
         norm_num)
     (by
       intro q hq
       rw [take_4000_dot] at hq
       rw [rfindSub_none _ '\n' ['\n'] dot_text_no_nl] at hq
       cases hq)
     (by rw [take_4000_dot]; exact rfind_dot_concrete 998)
     (by norm_num)⟩
